import Mathlib

/-!
# go-workflows: synchronisation primitives and backends

A shallow embedding of `internal/sync/channel.go`, `internal/sync/future.go`,
`internal/sync/selector.go`, `internal/workflowstate/signalchannels.go`,
`pkg/backend/memory/memory.go`, of `CancelWorkflowInstance` of
`backend/sqlite/sqlite.go`, of `executeActivity` of `workflow/activity.go`, of
`Workflow1` of `samples/timer/timer.go` and of `pkg/workflow/coroutine.go`,
followed by the properties established about them.

Conventions of the embedding.

* A Go method with a pointer receiver becomes a function from the state
  before the call to an `Outcome`: the value returned together with the state
  after the call, or a panic together with the state reached when it was raised.
* A callback stored in a channel (`func(T)` for a parked receiver,
  `func() T` for a parked sender) is represented by a handle; every
  invocation of a callback is appended to the `calls` trace of the channel, so
  "the callback `r` was invoked with `v`" is a statement about that trace.
* `interface{}` arguments are values of `Iface T`: `nil` or a `T`.
  `converter.AssignValue` of `nil` leaves the target at its zero value.
* The `converter` package is outside the embedded files. `AssignValue` between
  a channel value and `*vptr` is taken to succeed; decoding a payload is the
  parameter `decode`, whose `none` stands for a returned error.
* Every `ctx` carries a coroutine state, so `getCoState` does not panic; a
  blocking call is embedded from its entry to its return or to its first
  `cr.Yield()`, and from the return of a `cr.Yield()` to the next one.
-/

namespace Sync

/-- Result of running a Go function on a state of type `σ`. -/
inductive Outcome (σ α : Type) where
  | ok (ret : α) (st : σ)
  | panic (msg : String) (st : σ)
  deriving DecidableEq, Repr

/-- The state after an outcome, on return and on panic alike. -/
def Outcome.stateOf {σ α : Type} : Outcome σ α → σ
  | Outcome.ok _ st => st
  | Outcome.panic _ st => st

/-- The value returned, when the outcome is a return. -/
def Outcome.retOf {σ α : Type} : Outcome σ α → Option α
  | Outcome.ok ret _ => some ret
  | Outcome.panic _ _ => none

/-- The message of the panic, when the outcome is a panic. -/
def Outcome.panicOf {σ α : Type} : Outcome σ α → Option String
  | Outcome.ok _ _ => none
  | Outcome.panic msg _ => some msg

/-- An `interface{}` holding either `nil` or a `T`. -/
inductive Iface (T : Type) where
  | nil
  | val (v : T)
  deriving DecidableEq, Repr

/-- One invocation of a callback held by a channel. -/
inductive Call (T : Type) where
  | receiver (cb : Nat) (v : Iface T)
  | sender (cb : Nat)
  deriving DecidableEq, Repr

/-- The struct `channel[T]`: buffer `c`, parked receiver callbacks, parked
sender callbacks (handle and captured value `v`), `closed`, `size`; `calls` is
the trace of callback invocations. -/
structure channel (T : Type) where
  c : List T
  receivers : List Nat
  senders : List (Nat × T)
  closed : Bool
  size : Nat
  calls : List (Call T)
  deriving DecidableEq, Repr

/-- Go: `NewChannel`. -/
def NewChannel (T : Type) : channel T :=
  { c := [], receivers := [], senders := [], closed := false, size := 0, calls := [] }

/-- Go: `NewBufferedChannel(size)`; `make([]T, 0, size)` rejects a negative
size, so the size of a channel is a natural number. -/
def NewBufferedChannel (T : Type) (size : Nat) : channel T :=
  { c := [], receivers := [], senders := [], closed := false, size := size, calls := [] }

variable {T : Type}

/-- Go: `hasValue`. -/
def channel.hasValue (c : channel T) : Bool :=
  decide (c.c.length > 0)

/-- Go: `canReceive`. -/
def channel.canReceive (c : channel T) : Bool :=
  c.hasValue || decide (c.senders.length > 0) || c.closed

/-- Go: `hasCapacity`. -/
def channel.hasCapacity (c : channel T) : Bool :=
  decide (c.c.length < c.size)

/-- Go: `trySend`. -/
def channel.trySend (c : channel T) (v : T) : Outcome (channel T) Bool :=
  if c.closed then
    Outcome.panic "channel closed" c
  else
    match c.receivers with
    | r :: rs =>
      Outcome.ok true { c with receivers := rs, calls := c.calls ++ [Call.receiver r (Iface.val v)] }
    | [] =>
      if c.hasCapacity then
        Outcome.ok true { c with c := c.c ++ [v] }
      else
        Outcome.ok false c

/-- Go: `tryReceive(vptr)`. The first component is `none` when the function
returns false and `some x` when it returns true after handing `x` to
`AssignValue` for `*vptr`. -/
def channel.tryReceive (c : channel T) : Option (Iface T) × channel T :=
  match c.c with
  | v :: rest => (some (Iface.val v), { c with c := rest })
  | [] =>
    if c.closed then
      (some Iface.nil, c)
    else
      match c.senders with
      | s :: ss => (some (Iface.val s.2), { c with senders := ss, calls := c.calls ++ [Call.sender s.1] })
      | [] => (none, c)

/-- Go: `SendNonblocking`. -/
def channel.SendNonblocking (c : channel T) (v : T) : Outcome (channel T) Bool :=
  c.trySend v

/-- Go: `ReceiveNonblocking(ctx, vptr)`. -/
def channel.ReceiveNonblocking (c : channel T) : Option (Iface T) × channel T :=
  c.tryReceive

/-- How a blocking call leaves the coroutine: it returned, or it is suspended
in `cr.Yield()`. -/
inductive SendStep where
  | returned
  | yielded
  deriving DecidableEq, Repr

/-- Go: `Send`, from its entry to its return or to its first `cr.Yield()`.
`cb` is the handle of the closure that captures `v` and `sentValue`. -/
def channel.Send (c : channel T) (cb : Nat) (v : T) : Outcome (channel T) SendStep :=
  match c.trySend v with
  | Outcome.panic msg c1 => Outcome.panic msg c1
  | Outcome.ok true c1 => Outcome.ok SendStep.returned c1
  | Outcome.ok false c1 =>
    Outcome.ok SendStep.yielded { c1 with senders := c1.senders ++ [(cb, v)] }

/-- The local `sentValue` of the `Send` whose closure is `cb`: set by the
closure when a receiver invokes it. -/
def channel.sentValue [DecidableEq T] (c : channel T) (cb : Nat) : Bool :=
  c.calls.contains (Call.sender cb)

/-- Go: `Send`, from a return of `cr.Yield()` to its return or to the next
`cr.Yield()` (`addedSender` is true by then). -/
def channel.SendResume [DecidableEq T] (c : channel T) (cb : Nat) (v : T) :
    Outcome (channel T) SendStep :=
  if c.sentValue cb then
    Outcome.ok SendStep.returned c
  else
    match c.trySend v with
    | Outcome.panic msg c1 => Outcome.panic msg c1
    | Outcome.ok true c1 => Outcome.ok SendStep.returned c1
    | Outcome.ok false c1 => Outcome.ok SendStep.yielded c1

/-- How `Receive` leaves the coroutine: returned with `*vptr` and `more`, or
suspended in `cr.Yield()`. -/
inductive RecvStep (T : Type) where
  | returned (v : Iface T) (more : Bool)
  | yielded
  deriving DecidableEq, Repr

/-- Go: `Receive(ctx, vptr)`, from its entry to its return or to its first
`cr.Yield()`. `cb` is the handle of the closure that captures `vptr` and
`receivedValue`. -/
def channel.Receive (c : channel T) (cb : Nat) : RecvStep T × channel T :=
  match c.tryReceive with
  | (some v, c1) => (RecvStep.returned v (!c1.closed), c1)
  | (none, c1) => (RecvStep.yielded, { c1 with receivers := c1.receivers ++ [cb] })

/-- The value last passed to the receiver closure `cb`, if it was invoked:
`receivedValue` and the content of `*vptr`. -/
def channel.receivedValue (c : channel T) (cb : Nat) : Option (Iface T) :=
  (c.calls.filterMap fun k =>
    match k with
    | Call.receiver r v => if r = cb then some v else none
    | Call.sender _ => none).getLast?

/-- Go: `Receive`, from a return of `cr.Yield()` to its return or to the next
`cr.Yield()` (`addedListener` is true by then). -/
def channel.ReceiveResume (c : channel T) (cb : Nat) : RecvStep T × channel T :=
  match c.receivedValue cb with
  | some v => (RecvStep.returned v (!c.closed), c)
  | none =>
    match c.tryReceive with
    | (some v, c1) => (RecvStep.returned v (!c1.closed), c1)
    | (none, c1) => (RecvStep.yielded, c1)

/-- The loop of `Close`: while a receiver is parked, remove the first one and
invoke it with `nil`. The second argument is `c.receivers`. -/
def channel.closeLoop (c : channel T) : List Nat → channel T
  | [] => c
  | r :: rs =>
    channel.closeLoop { c with receivers := rs, calls := c.calls ++ [Call.receiver r Iface.nil] } rs

/-- Go: `Close`. -/
def channel.Close (c : channel T) : Outcome (channel T) Unit :=
  let c1 : channel T := { c with closed := true }
  if c1.senders.length > 0 then
    Outcome.panic "send on closed channel" c1
  else
    Outcome.ok () (c1.closeLoop c1.receivers)

/-- Go: `AddReceiveCallback`. -/
def channel.AddReceiveCallback (c : channel T) (cb : Nat) : channel T :=
  { c with receivers := c.receivers ++ [cb] }

/-- Go: `ReceiveNonBlocking(ctx, cb)`: `vptr` is a nil interface, so
`tryReceive` assigns nothing and `cb` is invoked with `nil`. -/
def channel.ReceiveNonBlocking (c : channel T) (cb : Nat) : Bool × channel T :=
  match c.tryReceive with
  | (some _, c1) => (true, { c1 with calls := c1.calls ++ [Call.receiver cb Iface.nil] })
  | (none, c1) => (false, c1.AddReceiveCallback cb)

/-- Go: `Closed`. -/
def channel.Closed (c : channel T) : Bool :=
  c.closed

/-- The results of `n` successive calls of `ReceiveNonblocking`, and the
channel after them. -/
def channel.receiveN : Nat → channel T → List (Option (Iface T)) × channel T
  | 0, c => ([], c)
  | n + 1, c =>
    let r := c.ReceiveNonblocking
    let rest := channel.receiveN n r.2
    (r.1 :: rest.1, rest.2)

/-- The struct `futureImpl[T]`; `err` is `none` for a nil error. -/
structure futureImpl (T E : Type) where
  hasValue : Bool
  v : T
  err : Option E
  deriving DecidableEq, Repr

/-- Go: `NewFuture`; `v` starts at the zero value of `T`. -/
def NewFuture (T E : Type) [Inhabited T] : futureImpl T E :=
  { hasValue := false, v := default, err := none }

/-- Go: `futureImpl.Set`. -/
def futureImpl.Set {E : Type} (f : futureImpl T E) (v : T) (err : Option E) :
    Outcome (futureImpl T E) Unit :=
  if f.hasValue then
    Outcome.panic "future already set" f
  else
    Outcome.ok () { f with v := v, err := err, hasValue := true }

/-- Go: `futureImpl.Ready`. -/
def futureImpl.Ready {E : Type} (f : futureImpl T E) : Bool :=
  f.hasValue

/-- A buffered channel of size 1 holding the value 10, reached by one `Send`. -/
def exFull : channel Nat :=
  Outcome.stateOf ((NewBufferedChannel Nat 1).Send 0 10)

/-- The channel `exFull` after a second `Send`, of 20, has parked. -/
def exParked : channel Nat :=
  Outcome.stateOf (exFull.Send 1 20)

/-- An unbuffered channel on which `Send` of 20 has parked. -/
def exSender : channel Nat :=
  Outcome.stateOf ((NewChannel Nat).Send 1 20)

/-- An unbuffered channel on which the receivers 4 and 5 have parked. -/
def exReceivers : channel Nat :=
  ((NewChannel Nat).Receive 4).2.Receive 5 |>.2

/-- A buffered channel of size 3, its buffer empty, on which the receivers 4
and 5 have parked. -/
def exReceiversBuffered : channel Nat :=
  ((NewBufferedChannel Nat 3).Receive 4).2.Receive 5 |>.2

/-- The channel `exFull` after `Close`: closed with 10 still buffered. -/
def exClosedFull : channel Nat :=
  Outcome.stateOf exFull.Close

/-- An unbuffered channel after `Close`. -/
def exClosed : channel Nat :=
  Outcome.stateOf (NewChannel Nat).Close

end Sync

namespace Workflowstate

open Sync

/-- A Go map with string keys. -/
abbrev GoMap (α : Type) := String → Option α

/-- Go: `m[k] = x`. -/
def GoMap.set {α : Type} (m : GoMap α) (k : String) (x : α) : GoMap α :=
  fun j => if j = k then some x else m j

/-- Go: `delete(m, k)`. -/
def GoMap.delete {α : Type} (m : GoMap α) (k : String) : GoMap α :=
  fun j => if j = k then none else m j

/-- The fields of `WfState` used by the signal functions. A `signalChannel`
is a pointer to its channel plus the `receive` closure over that channel, so
the map holds the channel and the closure is `signalChannel.receive`. Payloads
have type `P`. -/
structure WfState (P T : Type) where
  signalChannels : GoMap (channel T)
  pendingSignals : GoMap (List P)

variable {P T : Type}

/-- The `receive` closure of a `signalChannel` over the channel `c`:
decode the input with `converter.DefaultConverter.From` (here `decode`, which
yields `none` for an error), panic on an error, else `c.SendNonblocking`. -/
def signalChannel.receive (decode : P → Option T) (c : channel T) (input : P) :
    Outcome (channel T) Unit :=
  match decode input with
  | none => Outcome.panic "converter error" c
  | some t =>
    match c.SendNonblocking t with
    | Outcome.panic msg c1 => Outcome.panic msg c1
    | Outcome.ok _ c1 => Outcome.ok () c1

/-- Go: `ReceiveSignal`. The final `ps = append(ps, arg)` assigns the local
slice variable only; the map entry keeps its slice header. -/
def ReceiveSignal (decode : P → Option T) (wf : WfState P T) (name : String) (arg : P) :
    Outcome (WfState P T) Unit :=
  match wf.signalChannels name with
  | some sc =>
    match signalChannel.receive decode sc arg with
    | Outcome.panic msg sc1 =>
      Outcome.panic msg { wf with signalChannels := wf.signalChannels.set name sc1 }
    | Outcome.ok _ sc1 =>
      Outcome.ok () { wf with signalChannels := wf.signalChannels.set name sc1 }
  | none =>
    let (ps, wf1) :=
      match wf.pendingSignals name with
      | some ps => (ps, wf)
      | none => (([] : List P), { wf with pendingSignals := wf.pendingSignals.set name [] })
    let _ps := ps ++ [arg]
    Outcome.ok () wf1

/-- The loop body of `GetSignalChannel` over the payloads in the order the
loop visits them: decode, panic on an error, `c.Send`; the run ends when a
`Send` suspends in `cr.Yield()`. -/
def sendPending (decode : P → Option T) (cb : Nat) (c : channel T) :
    List P → Outcome (channel T) SendStep
  | [] => Outcome.ok SendStep.returned c
  | p :: rest =>
    match decode p with
    | none => Outcome.panic "converter error" c
    | some s =>
      match c.Send cb s with
      | Outcome.panic msg c1 => Outcome.panic msg c1
      | Outcome.ok SendStep.yielded c1 => Outcome.ok SendStep.yielded c1
      | Outcome.ok SendStep.returned c1 => sendPending decode cb c1 rest

/-- Go: `GetSignalChannel`, from its entry to its return or to the first
`cr.Yield()` of a `Send` in its loop. The channel it returns is the entry
`signalChannels name` of the resulting state. The loop runs
`i = len-1, ..., 0`, that is over the reversed slice. -/
def GetSignalChannel (decode : P → Option T) (wf : WfState P T) (name : String) (cb : Nat) :
    Outcome (WfState P T) SendStep :=
  match wf.signalChannels name with
  | some _ => Outcome.ok SendStep.returned wf
  | none =>
    let c := NewBufferedChannel T 10000
    let wf1 : WfState P T := { wf with signalChannels := wf.signalChannels.set name c }
    match wf1.pendingSignals name with
    | some pendingSignals =>
      match sendPending decode cb c pendingSignals.reverse with
      | Outcome.panic msg c1 =>
        Outcome.panic msg { wf1 with signalChannels := wf1.signalChannels.set name c1 }
      | Outcome.ok SendStep.yielded c1 =>
        Outcome.ok SendStep.yielded { wf1 with signalChannels := wf1.signalChannels.set name c1 }
      | Outcome.ok SendStep.returned c1 =>
        Outcome.ok SendStep.returned
          { signalChannels := wf1.signalChannels.set name c1,
            pendingSignals := wf1.pendingSignals.delete name }
    | none => Outcome.ok SendStep.returned wf1

/-- A workflow state with no signal channel and no pending signal. -/
def emptyWfState (P T : Type) : WfState P T :=
  { signalChannels := fun _ => none, pendingSignals := fun _ => none }

/-- A workflow state with no signal channel whose only pending entry is
`ps` under `name`. -/
def pendingOnly (P T : Type) (name : String) (ps : List P) : WfState P T :=
  { signalChannels := fun _ => none,
    pendingSignals := fun k => if k = name then some ps else none }

/-- The state after the signal `"go"` with payload `"X"` has been delivered to
the empty state; payloads decode to themselves. -/
def exSignalled : WfState String String :=
  (ReceiveSignal some (emptyWfState String String) "go" "X").stateOf

/-- The state after `GetSignalChannel "go"` on `exSignalled`. -/
def exSignalChannel : WfState String String :=
  (GetSignalChannel some exSignalled "go" 0).stateOf

end Workflowstate

/-! ## Futures and selectors: `Get` and `Select` -/

namespace Sync

variable {T E : Type}

/-- How `Get` leaves the coroutine: returned with its two results, or
suspended in `cr.Yield()`. -/
inductive GetStep (T E : Type) where
  | returned (r : T) (err : Option E)
  | yielded
  deriving DecidableEq, Repr

/-- Go: `futureImpl.Get`, one pass of its loop: from the entry (or from the
return of a `cr.Yield()`) to the return or to the next `cr.Yield()`. The
second component is the future after the pass. `assign v` stands for
`converter.AssignValue(f.converter, v, &r)`: the content of `r` afterwards
and the error returned. -/
def futureImpl.Get [Inhabited T] (assign : T → T × Option E) (f : futureImpl T E) :
    GetStep T E × futureImpl T E :=
  if f.hasValue then
    match f.err with
    | some e => (GetStep.returned default (some e), f)
    | none => (GetStep.returned (assign f.v).1 (assign f.v).2, f)
  else
    (GetStep.yielded, f)

/-- The implementations of `selectorCase`; `fn` is the handle of the handler
closure. -/
inductive selectorCase (T E : Type) where
  | futureCase (f : futureImpl T E) (fn : Nat)
  | channelCase (c : channel T) (fn : Nat)
  | defaultCase (fn : Nat)
  deriving DecidableEq, Repr

/-- Go: `Ready` of `futureCase`, `channelCase` and `defaultCase`. -/
def selectorCase.Ready : selectorCase T E → Bool
  | selectorCase.futureCase f _ => f.Ready
  | selectorCase.channelCase c _ => c.canReceive
  | selectorCase.defaultCase _ => true

/-- Go: `Handle` of the three cases: each invokes its handler `fn`; the
result is the handle of the handler invoked. -/
def selectorCase.Handle : selectorCase T E → Nat
  | selectorCase.futureCase _ fn => fn
  | selectorCase.channelCase _ fn => fn
  | selectorCase.defaultCase fn => fn

/-- What one pass of `Select` did: the handlers invoked, each with the index
of its case in the list, and whether the pass returned or reached
`cs.Yield()`. -/
structure SelectStep where
  calls : List (Nat × Nat)
  step : SendStep
  deriving DecidableEq, Repr

/-- The inner loop `for _, c := range cases` of `Select`, entered at the
case of index `i`. -/
def Select.scan : Nat → List (selectorCase T E) → SelectStep
  | _, [] => { calls := [], step := SendStep.yielded }
  | i, c :: cs =>
    if c.Ready then
      { calls := [(i, c.Handle)], step := SendStep.returned }
    else
      Select.scan (i + 1) cs

/-- Go: `Select(ctx, cases...)` of selector.go line 35, one pass of its outer
loop: from the entry (or from the return of `cs.Yield()`) to the return or to
the next `cs.Yield()`. -/
def Select (cases : List (selectorCase T E)) : SelectStep :=
  Select.scan 0 cases

/-- A future set to the value 7 with a nil error. -/
def exReadyFuture : futureImpl Nat String :=
  ((NewFuture Nat String).Set 7 none).stateOf

/-- Three cases: an unset future, a channel with a buffered value, a
default case. -/
def exCases : List (selectorCase Nat String) :=
  [selectorCase.futureCase (NewFuture Nat String) 11,
   selectorCase.channelCase exFull 12, selectorCase.defaultCase 13]

/-- A future set with the error `"boom"`. -/
def exFailedFuture : futureImpl Nat String :=
  ((NewFuture Nat String).Set 7 (some "boom")).stateOf

end Sync

/-! ## The in-memory backend (`pkg/backend/memory/memory.go`)

Conventions, in addition to those above.

* `time.Now()` is the argument `now` of an operation; times are natural
  numbers, and `VisibleAt` is `none` for a nil pointer.
* A Go `error` result is an `Option String`: `none` for nil.
* The queues `workflows` and `activities` are the buffers of the Go channels,
  oldest element first; `NewMemoryBackend` makes both with capacity 100. A
  send appends while the buffer holds fewer than 100 elements. A send on a
  full buffer does not return: the operation blocks there, holding `mu`, and
  its outcome is `blocked` with the backend as the send found it.
* `GetWorkflowTask` and `GetActivityTask` are embedded for a context that is
  not done: with an empty queue they return nil and change nothing.
* A write through a `*workflowState` is a write to the entry of `instances`
  it is stored under.
* The goroutine started for a `TimerScheduled` event is recorded in `timers`
  and runs as the operation `timerFires`.
-/

namespace Memory

open Workflowstate (GoMap)

/-- Result of an operation of the backend: it returns `ret`, it panics, or it
blocks in a send on a full channel. `st` is the backend at that point; for
`blocked` it is the backend at the send, before the value is in the channel. -/
inductive Outcome (σ α : Type) where
  | ok (ret : α) (st : σ)
  | panic (msg : String) (st : σ)
  | blocked (st : σ)

/-- The backend after an outcome: on return, on panic, and at the send an
operation blocks in. -/
def Outcome.stateOf {σ α : Type} : Outcome σ α → σ
  | Outcome.ok _ st => st
  | Outcome.panic _ st => st
  | Outcome.blocked st => st

/-- The value returned, when the outcome is a return. -/
def Outcome.retOf {σ α : Type} : Outcome σ α → Option α
  | Outcome.ok ret _ => some ret
  | Outcome.panic _ _ => none
  | Outcome.blocked _ => none

/-- Whether the operation blocks in a send on a full channel. -/
def Outcome.isBlocked {σ α : Type} : Outcome σ α → Bool
  | Outcome.blocked _ => true
  | _ => false

/-- Modelled from the spec: the closed set of event kinds of section 3; the
`history` package is outside the embedded files. -/
inductive EventType where
  | WorkflowExecutionStarted
  | WorkflowExecutionFinished
  | WorkflowCancellationRequested
  | ActivityScheduled
  | ActivityCompleted
  | ActivityFailed
  | TimerScheduled
  | TimerFired
  | TimerCanceled
  | SubWorkflowScheduled
  | SubWorkflowCompleted
  | SubWorkflowFailed
  | SignalReceived
  | SideEffectResult
  deriving DecidableEq, Repr

/-- The `Attributes` of an event: `*history.TimerScheduledAttributes` with
its field `At`, or any other attribute value. -/
inductive Attributes where
  | TimerScheduledAttributes (At : Nat)
  | other (data : Nat)
  deriving DecidableEq, Repr

/-- The fields of `history.Event` the backend reads. -/
structure Event where
  ID : String
  EventType : EventType
  Attributes : Attributes
  VisibleAt : Option Nat
  deriving DecidableEq, Repr

/-- The struct `core.WorkflowInstance`; `GetInstanceID()` is `InstanceID`. -/
structure WorkflowInstance where
  InstanceID : String
  ExecutionID : String
  deriving DecidableEq, Repr

/-- The struct `core.TaskMessage`. -/
structure TaskMessage where
  WorkflowInstance : WorkflowInstance
  HistoryEvent : Event
  deriving DecidableEq, Repr

/-- The struct `task.Workflow`. -/
structure Workflow where
  WorkflowInstance : WorkflowInstance
  History : List Event
  NewEvents : List Event
  deriving DecidableEq, Repr

/-- The struct `task.Activity`; `ID` is the number of the uuid drawn. -/
structure Activity where
  WorkflowInstance : WorkflowInstance
  ID : Nat
  Event : Event
  deriving DecidableEq, Repr

/-- The type `workflowStatus`. -/
inductive workflowStatus where
  | workflowStatusRunning
  | workflowStatusCompleted
  deriving DecidableEq, Repr

/-- The struct `workflowState`, without `ParentInstance` and `CompletedAt`,
which no function of the backend assigns. -/
structure workflowState where
  Status : workflowStatus
  Instance : WorkflowInstance
  History : List Event
  NewEvents : List Event
  CreatedAt : Nat
  deriving DecidableEq, Repr

/-- The struct `memoryBackend`; `timers` holds the timer goroutines started
and not yet run (instance and `At`), `uuids` counts the uuids drawn. -/
structure memoryBackend where
  instances : GoMap workflowState
  lockedWorkflows : GoMap Bool
  pendingWorkflows : GoMap Bool
  workflows : List Workflow
  activities : List Activity
  timers : List (WorkflowInstance × Nat)
  uuids : Nat

/-- Go: `NewMemoryBackend`. -/
def NewMemoryBackend : memoryBackend :=
  { instances := fun _ => none, lockedWorkflows := fun _ => none,
    pendingWorkflows := fun _ => none, workflows := [], activities := [],
    timers := [], uuids := 0 }

/-- The test `event.VisibleAt == nil || event.VisibleAt.Before(time.Now().UTC())`. -/
def visible (now : Nat) (event : Event) : Bool :=
  match event.VisibleAt with
  | none => true
  | some at_ => decide (at_ < now)

/-- The capacity of the channels `workflows` and `activities`, as
`NewMemoryBackend` makes them. -/
def capacity : Nat := 100

/-- Go: `queueWorkflowTask`. The entry of `pendingWorkflows` is written before
the send on `workflows`. -/
def memoryBackend.queueWorkflowTask (mb : memoryBackend) (now : Nat) (wfi : WorkflowInstance) :
    Outcome memoryBackend Unit :=
  match mb.instances wfi.InstanceID with
  | none => Outcome.panic "could not find workflow instance" mb
  | some inst =>
    let newEvents := inst.NewEvents.filter (visible now)
    if newEvents.length = 0 then
      Outcome.ok () mb
    else if (mb.pendingWorkflows wfi.InstanceID).getD false then
      Outcome.ok () mb
    else if mb.workflows.length < capacity then
      Outcome.ok ()
        { mb with
          pendingWorkflows := mb.pendingWorkflows.set wfi.InstanceID true,
          workflows := mb.workflows ++
            [{ WorkflowInstance := wfi, History := inst.History, NewEvents := newEvents }] }
    else
      Outcome.blocked
        { mb with pendingWorkflows := mb.pendingWorkflows.set wfi.InstanceID true }

/-- Go: `CreateWorkflowInstance`. -/
def memoryBackend.CreateWorkflowInstance (mb : memoryBackend) (now : Nat) (m : TaskMessage) :
    Outcome memoryBackend (Option String) :=
  match mb.instances m.WorkflowInstance.InstanceID with
  | some _ => Outcome.ok (some "workflow instance already exists") mb
  | none =>
    let state : workflowState :=
      { Status := workflowStatus.workflowStatusRunning, Instance := m.WorkflowInstance,
        History := [], NewEvents := [m.HistoryEvent], CreatedAt := now }
    let mb1 : memoryBackend :=
      { mb with instances := mb.instances.set m.WorkflowInstance.InstanceID state }
    match mb1.queueWorkflowTask now m.WorkflowInstance with
    | Outcome.panic msg mb2 => Outcome.panic msg mb2
    | Outcome.blocked mb2 => Outcome.blocked mb2
    | Outcome.ok _ mb2 => Outcome.ok none mb2

/-- Go: `SignalWorkflow`. -/
def memoryBackend.SignalWorkflow (mb : memoryBackend) (now : Nat) (wfi : WorkflowInstance)
    (event : Event) : Outcome memoryBackend (Option String) :=
  match mb.instances wfi.InstanceID with
  | none => Outcome.ok (some "workflow instance does not exist") mb
  | some inst =>
    let inst1 : workflowState := { inst with NewEvents := inst.NewEvents ++ [event] }
    let mb1 : memoryBackend := { mb with instances := mb.instances.set wfi.InstanceID inst1 }
    match mb1.queueWorkflowTask now wfi with
    | Outcome.panic msg mb2 => Outcome.panic msg mb2
    | Outcome.blocked mb2 => Outcome.blocked mb2
    | Outcome.ok _ mb2 => Outcome.ok none mb2

/-- Go: `GetWorkflowTask`. -/
def memoryBackend.GetWorkflowTask (mb : memoryBackend) : Option Workflow × memoryBackend :=
  match mb.workflows with
  | [] => (none, mb)
  | t :: rest =>
    (some t,
      { mb with
        workflows := rest,
        lockedWorkflows := mb.lockedWorkflows.set t.WorkflowInstance.InstanceID true,
        pendingWorkflows := mb.pendingWorkflows.delete t.WorkflowInstance.InstanceID })

/-- A write through the pointer stored in `instances` under `id`. -/
def memoryBackend.modifyInstance (mb : memoryBackend) (id : String)
    (f : workflowState → workflowState) : memoryBackend :=
  match mb.instances id with
  | some s => { mb with instances := mb.instances.set id (f s) }
  | none => mb

/-- The body of the loop over `newEvents` in `CompleteWorkflowTask`; the
Boolean is `workflowCompleted`. -/
def memoryBackend.handleNewEvent (mb : memoryBackend) (wfi : WorkflowInstance)
    (workflowCompleted : Bool) (event : Event) : Outcome memoryBackend Bool :=
  let r : Outcome memoryBackend Bool :=
    match event.EventType with
    | EventType.ActivityScheduled =>
      if mb.activities.length < capacity then
        Outcome.ok workflowCompleted
          { mb with
            activities := mb.activities ++
              [{ WorkflowInstance := wfi, ID := mb.uuids, Event := event }],
            uuids := mb.uuids + 1 }
      else
        Outcome.blocked { mb with uuids := mb.uuids + 1 }
    | EventType.TimerScheduled =>
      match event.Attributes with
      | Attributes.TimerScheduledAttributes a =>
        Outcome.ok workflowCompleted { mb with timers := mb.timers ++ [(wfi, a)] }
      | Attributes.other _ => Outcome.panic "interface conversion" mb
    | EventType.WorkflowExecutionFinished => Outcome.ok true mb
    | _ => Outcome.ok workflowCompleted mb
  match r with
  | Outcome.panic msg mb1 => Outcome.panic msg mb1
  | Outcome.blocked mb1 => Outcome.blocked mb1
  | Outcome.ok wc mb1 =>
    Outcome.ok wc
      (mb1.modifyInstance wfi.InstanceID fun s => { s with NewEvents := s.NewEvents ++ [event] })

/-- The loop over `newEvents` in `CompleteWorkflowTask`. -/
def handleNewEvents (wfi : WorkflowInstance) :
    List Event → memoryBackend → Bool → Outcome memoryBackend Bool
  | [], mb, wc => Outcome.ok wc mb
  | event :: rest, mb, wc =>
    match mb.handleNewEvent wfi wc event with
    | Outcome.panic msg mb1 => Outcome.panic msg mb1
    | Outcome.blocked mb1 => Outcome.blocked mb1
    | Outcome.ok wc1 mb1 => handleNewEvents wfi rest mb1 wc1

/-- The body of the loop over `workflowMessages` in `CompleteWorkflowTask`. -/
def memoryBackend.handleMessage (mb : memoryBackend) (now : Nat) (m : TaskMessage) :
    Outcome memoryBackend Unit :=
  let found : workflowState × memoryBackend :=
    match mb.instances m.WorkflowInstance.InstanceID with
    | some state => (state, mb)
    | none =>
      let state : workflowState :=
        { Status := workflowStatus.workflowStatusRunning, Instance := m.WorkflowInstance,
          History := [], NewEvents := [], CreatedAt := now }
      (state, { mb with instances := mb.instances.set m.WorkflowInstance.InstanceID state })
  let state1 : workflowState :=
    { found.1 with NewEvents := found.1.NewEvents ++ [m.HistoryEvent] }
  let mb2 : memoryBackend :=
    { found.2 with instances := found.2.instances.set m.WorkflowInstance.InstanceID state1 }
  mb2.queueWorkflowTask now state1.Instance

/-- The loop over `workflowMessages` in `CompleteWorkflowTask`. -/
def handleMessages (now : Nat) : List TaskMessage → memoryBackend → Outcome memoryBackend Unit
  | [], mb => Outcome.ok () mb
  | m :: rest, mb =>
    match mb.handleMessage now m with
    | Outcome.panic msg mb1 => Outcome.panic msg mb1
    | Outcome.blocked mb1 => Outcome.blocked mb1
    | Outcome.ok _ mb1 => handleMessages now rest mb1

/-- The map `handled` of `CompleteWorkflowTask` as a test on events. -/
def handled (t : Workflow) (event : Event) : Bool :=
  decide (event.ID ∈ t.NewEvents.map Event.ID)

/-- Go: `CompleteWorkflowTask`. A nil `instance` is dereferenced by the first
loop over `inst.NewEvents`. -/
def memoryBackend.CompleteWorkflowTask (mb : memoryBackend) (now : Nat) (t : Workflow)
    (newEvents : List Event) (workflowMessages : List TaskMessage) :
    Outcome memoryBackend (Option String) :=
  let wfi := t.WorkflowInstance
  match mb.lockedWorkflows wfi.InstanceID with
  | none => Outcome.ok (some "could not find locked workflow instance") mb
  | some _ =>
    match mb.instances wfi.InstanceID with
    | none => Outcome.panic "nil pointer dereference" mb
    | some inst =>
      let instance1 : workflowState :=
        { inst with
          History := inst.History ++ inst.NewEvents.filter (handled t),
          NewEvents := inst.NewEvents.filter (fun event => !handled t event) }
      let mb1 : memoryBackend := { mb with instances := mb.instances.set wfi.InstanceID instance1 }
      match handleNewEvents wfi newEvents mb1 false with
      | Outcome.panic msg mb2 => Outcome.panic msg mb2
      | Outcome.blocked mb2 => Outcome.blocked mb2
      | Outcome.ok workflowCompleted mb2 =>
        match handleMessages now workflowMessages mb2 with
        | Outcome.panic msg mb3 => Outcome.panic msg mb3
        | Outcome.blocked mb3 => Outcome.blocked mb3
        | Outcome.ok _ mb3 =>
          let mb4 : memoryBackend :=
            { mb3 with lockedWorkflows := mb3.lockedWorkflows.delete wfi.InstanceID }
          if !workflowCompleted then
            let hasNewEvents : Bool :=
              match mb4.instances wfi.InstanceID with
              | some i4 => decide (i4.NewEvents.length > 0)
              | none => false
            if hasNewEvents then
              match mb4.queueWorkflowTask now wfi with
              | Outcome.panic msg mb5 => Outcome.panic msg mb5
              | Outcome.blocked mb5 => Outcome.blocked mb5
              | Outcome.ok _ mb5 => Outcome.ok none mb5
            else
              Outcome.ok none mb4
          else
            Outcome.ok none
              (mb4.modifyInstance wfi.InstanceID fun s =>
                { s with Status := workflowStatus.workflowStatusCompleted })

/-- Go: `GetActivityTask`. -/
def memoryBackend.GetActivityTask (mb : memoryBackend) : Option Activity × memoryBackend :=
  match mb.activities with
  | [] => (none, mb)
  | t :: rest => (some t, { mb with activities := rest })

/-- Go: `CompleteActivityTask`. -/
def memoryBackend.CompleteActivityTask (mb : memoryBackend) (now : Nat) (wfi : WorkflowInstance)
    (_taskID : Nat) (event : Event) : Outcome memoryBackend (Option String) :=
  match mb.instances wfi.InstanceID with
  | none => Outcome.ok (some "workflow instance does not exist") mb
  | some inst =>
    if inst.Status = workflowStatus.workflowStatusCompleted then
      Outcome.ok none mb
    else
      let inst1 : workflowState := { inst with NewEvents := inst.NewEvents ++ [event] }
      let mb1 : memoryBackend := { mb with instances := mb.instances.set wfi.InstanceID inst1 }
      match mb1.lockedWorkflows wfi.InstanceID with
      | none =>
        match mb1.queueWorkflowTask now wfi with
        | Outcome.panic msg mb2 => Outcome.panic msg mb2
        | Outcome.blocked mb2 => Outcome.blocked mb2
        | Outcome.ok _ mb2 => Outcome.ok none mb2
      | some _ => Outcome.ok none mb1

/-- The timer goroutine of `CompleteWorkflowTask` number `i`, run at time
`now` once its delay has passed: it takes the lock and calls
`queueWorkflowTask`. -/
def memoryBackend.timerFires (mb : memoryBackend) (now : Nat) (i : Nat) :
    Outcome memoryBackend Unit :=
  match mb.timers.get? i with
  | none => Outcome.ok () mb
  | some tm =>
    if tm.2 ≤ now then
      ({ mb with timers := mb.timers.eraseIdx i } : memoryBackend).queueWorkflowTask now tm.1
    else
      Outcome.ok () mb

/-- One operation on the backend, with its arguments. -/
inductive Op where
  | CreateWorkflowInstance (now : Nat) (m : TaskMessage)
  | SignalWorkflow (now : Nat) (wfi : WorkflowInstance) (event : Event)
  | GetWorkflowTask
  | CompleteWorkflowTask (now : Nat) (t : Workflow) (newEvents : List Event)
      (workflowMessages : List TaskMessage)
  | GetActivityTask
  | CompleteActivityTask (now : Nat) (wfi : WorkflowInstance) (taskID : Nat) (event : Event)
  | timerFires (now : Nat) (i : Nat)

/-- The backend after one operation: as it returned or panicked, or as the
send it blocks in found it. -/
def memoryBackend.step (mb : memoryBackend) : Op → memoryBackend
  | Op.CreateWorkflowInstance now m => (mb.CreateWorkflowInstance now m).stateOf
  | Op.SignalWorkflow now wfi event => (mb.SignalWorkflow now wfi event).stateOf
  | Op.GetWorkflowTask => mb.GetWorkflowTask.2
  | Op.CompleteWorkflowTask now t newEvents workflowMessages =>
    (mb.CompleteWorkflowTask now t newEvents workflowMessages).stateOf
  | Op.GetActivityTask => mb.GetActivityTask.2
  | Op.CompleteActivityTask now wfi taskID event =>
    (mb.CompleteActivityTask now wfi taskID event).stateOf
  | Op.timerFires now i => (mb.timerFires now i).stateOf

/-- The backend reached from `NewMemoryBackend` by a sequence of operations. -/
def run (ops : List Op) : memoryBackend :=
  ops.foldl memoryBackend.step NewMemoryBackend

/-- The entry `pendingWorkflows[id]` read as a Go Boolean. -/
def memoryBackend.pending (mb : memoryBackend) (id : String) : Bool :=
  (mb.pendingWorkflows id).getD false

/-- Well-formedness of a backend: an instance id marked in
`pendingWorkflows`, and the instance id of a queued workflow task, are ids of
instances held in `instances`. -/
def WellFormed (mb : memoryBackend) : Prop :=
  (∀ id, mb.pending id = true → (mb.instances id).isSome = true) ∧
  (∀ t ∈ mb.workflows, (mb.instances t.WorkflowInstance.InstanceID).isSome = true)

/-- The backend `mb2` extends `mb1`: it holds every instance of `mb1`, and
what it marks pending or has queued beyond `mb1` belongs to instances it
holds. -/
def Extends (mb1 mb2 : memoryBackend) : Prop :=
  (∀ id, (mb1.instances id).isSome = true → (mb2.instances id).isSome = true) ∧
  (∀ id, mb2.pending id = true → mb1.pending id = true ∨ (mb2.instances id).isSome = true) ∧
  (∀ t ∈ mb2.workflows,
    t ∈ mb1.workflows ∨ (mb2.instances t.WorkflowInstance.InstanceID).isSome = true)

/-- The events of the messages addressed to the instance `id`, in order. -/
def messagesFor (id : String) (workflowMessages : List TaskMessage) : List Event :=
  (workflowMessages.filter fun m => decide (m.WorkflowInstance.InstanceID = id)).map
    TaskMessage.HistoryEvent

/-- Whether the produced events contain a `WorkflowExecutionFinished`. -/
def finishes (newEvents : List Event) : Bool :=
  newEvents.any fun event => decide (event.EventType = EventType.WorkflowExecutionFinished)

/-- The workflow instance `"A"`. -/
def exA : WorkflowInstance :=
  { InstanceID := "A", ExecutionID := "x" }

/-- An event without attributes of interest, visible at once. -/
def exEvent (id : String) (ty : EventType) : Event :=
  { ID := id, EventType := ty, Attributes := Attributes.other 0, VisibleAt := none }

/-- The start message of the instance `"A"`. -/
def exStart : TaskMessage :=
  { WorkflowInstance := exA, HistoryEvent := exEvent "e1" EventType.WorkflowExecutionStarted }

/-- The first task of `"A"`, as `GetWorkflowTask` hands it out after
`CreateWorkflowInstance`. -/
def exTask : Workflow :=
  { WorkflowInstance := exA, History := [],
    NewEvents := [exEvent "e1" EventType.WorkflowExecutionStarted] }

/-- Create `"A"`, lease its task, then signal `"A"` while it is locked. -/
def exSignalWhileLocked : List Op :=
  [Op.CreateWorkflowInstance 1 exStart, Op.GetWorkflowTask,
   Op.SignalWorkflow 2 exA (exEvent "e2" EventType.SignalReceived)]

/-- Create `"A"`, lease its task, complete it with a
`WorkflowExecutionFinished` event, then signal `"A"`. -/
def exSignalAfterCompletion : List Op :=
  [Op.CreateWorkflowInstance 1 exStart, Op.GetWorkflowTask,
   Op.CompleteWorkflowTask 2 exTask [exEvent "e3" EventType.WorkflowExecutionFinished] [],
   Op.SignalWorkflow 3 exA (exEvent "e2" EventType.SignalReceived)]

/-- Create `"A"`, signal it before its task is leased, lease and complete
the task `exTask`, then lease the task queued for the signal: `"A"` is locked,
its history is the start event and its pending events are the signal. -/
def exSecondLease : List Op :=
  [Op.CreateWorkflowInstance 1 exStart,
   Op.SignalWorkflow 2 exA (exEvent "e2" EventType.SignalReceived),
   Op.GetWorkflowTask, Op.CompleteWorkflowTask 3 exTask [] [], Op.GetWorkflowTask]

/-- A message addressed to `"A"` itself. -/
def exSelfMessage : TaskMessage :=
  { WorkflowInstance := exA, HistoryEvent := exEvent "e5" EventType.SubWorkflowCompleted }

/-- A message addressed to `"A"` itself that carries the start event of `"A"`
again. -/
def exSelfRepeat : TaskMessage :=
  { WorkflowInstance := exA, HistoryEvent := exEvent "e1" EventType.WorkflowExecutionStarted }

/-- A start message for `"A"` whose event becomes visible at time 10. -/
def exDeferredStart : TaskMessage :=
  { WorkflowInstance := exA,
    HistoryEvent :=
      { ID := "e1", EventType := EventType.WorkflowExecutionStarted,
        Attributes := Attributes.other 0, VisibleAt := some 10 } }

/-- The entry of `"A"` after it was created at time 1: running, empty
history, the start event pending. -/
def exLeasedInstance : workflowState :=
  { Status := workflowStatus.workflowStatusRunning, Instance := exA, History := [],
    NewEvents := [exEvent "e1" EventType.WorkflowExecutionStarted], CreatedAt := 1 }

/-- Create `"A"` and lease its task. -/
def exLeased : List Op :=
  [Op.CreateWorkflowInstance 1 exStart, Op.GetWorkflowTask]

/-- Create `"A"`, lease its task and complete it with no new events: `"A"`
is not locked, its history is the start event and nothing is pending. -/
def exReleased : List Op :=
  [Op.CreateWorkflowInstance 1 exStart, Op.GetWorkflowTask,
   Op.CompleteWorkflowTask 2 exTask [] []]

/-- The entry of `"A"` in `run exReleased`. -/
def exReleasedInstance : workflowState :=
  { Status := workflowStatus.workflowStatusRunning, Instance := exA,
    History := [exEvent "e1" EventType.WorkflowExecutionStarted], NewEvents := [],
    CreatedAt := 1 }

/-- The start message of the instance `"w"` followed by the digits of `i`. -/
def exStartOf (i : Nat) : TaskMessage :=
  { WorkflowInstance := { InstanceID := "w" ++ toString i, ExecutionID := "x" },
    HistoryEvent := exEvent "e1" EventType.WorkflowExecutionStarted }

/-- Create the one hundred instances `"w0"` to `"w99"` and take no task from
the queue. -/
def exHundred : List Op :=
  (List.range 100).map fun i => Op.CreateWorkflowInstance 1 (exStartOf i)

end Memory

/-! ## The sqlite backend: `CancelWorkflowInstance` (`backend/sqlite/sqlite.go`)

The tables are lists of rows in rowid order. Statements are taken to execute
without a database error, so the transaction commits when the function
reaches `tx.Commit()`.
-/

namespace Sqlite

/-- The columns of a row of `instances` read by `CancelWorkflowInstance`. -/
structure InstanceRow where
  id : String
  parent_instance_id : Option String
  completed_at : Option Nat
  deriving DecidableEq, Repr

/-- A row of `pending_events`: the instance it belongs to, the event type
and the timestamp of the event. -/
structure PendingEventRow where
  instance_id : String
  event_type : Memory.EventType
  timestamp : Nat
  deriving DecidableEq, Repr

/-- The tables `instances` and `pending_events`. -/
structure Db where
  instances : List InstanceRow
  pending_events : List PendingEventRow
  deriving DecidableEq, Repr

/-- Go: `history.NewWorkflowCancellationEvent(time.Now())` as the row it is
stored in for the instance `instanceID`. -/
def NewWorkflowCancellationEvent (now : Nat) (instanceID : String) : PendingEventRow :=
  { instance_id := instanceID, event_type := Memory.EventType.WorkflowCancellationRequested,
    timestamp := now }

/-- Modelled from the spec: `insertNewEvents` is outside the embedded files;
it appends the events to the pending events of the instance (section 4.F:
"appends pending event"). -/
def insertNewEvents (db : Db) (rows : List PendingEventRow) : Db :=
  { db with pending_events := db.pending_events ++ rows }

/-- The query `SELECT id FROM instances WHERE parent_instance_id = ? AND
completed_at IS NULL LIMIT 1`: the first matching row in rowid order. -/
def selectUncompletedChild (db : Db) (instanceID : String) : Option String :=
  (db.instances.find? fun r =>
    decide (r.parent_instance_id = some instanceID) && decide (r.completed_at = none)).map
    InstanceRow.id

/-- The loop of `CancelWorkflowInstance`, run for at most `fuel` iterations;
`none` when the iterations do not suffice. -/
def cancelLoop (now : Nat) : Nat → Db → String → Option Db
  | 0, _, _ => none
  | fuel + 1, db, instanceID =>
    match selectUncompletedChild db instanceID with
    | none => some db
    | some subWorkflowInstanceID =>
      cancelLoop now fuel
        (insertNewEvents db [NewWorkflowCancellationEvent now subWorkflowInstanceID])
        subWorkflowInstanceID

/-- Go: `CancelWorkflowInstance`: the database committed, with the loop run
for at most `fuel` iterations. -/
def CancelWorkflowInstance (fuel : Nat) (db : Db) (now : Nat) (instanceID : String) :
    Option Db :=
  cancelLoop now fuel (insertNewEvents db [NewWorkflowCancellationEvent now instanceID])
    instanceID

/-- The pending cancellation events of an instance. -/
def cancellationsOf (db : Db) (id : String) : List PendingEventRow :=
  db.pending_events.filter fun r =>
    decide (r.instance_id = id) &&
      decide (r.event_type = Memory.EventType.WorkflowCancellationRequested)

/-- A root `"R"` with two uncompleted children `"C1"` and `"C2"`, no pending
events. -/
def exTree : Db :=
  { instances :=
      [{ id := "R", parent_instance_id := none, completed_at := none },
       { id := "C1", parent_instance_id := some "R", completed_at := none },
       { id := "C2", parent_instance_id := some "R", completed_at := none }],
    pending_events := [] }

/-- The tree of `exTree` with the rows of the children in the other order. -/
def exTreeSwapped : Db :=
  { instances :=
      [{ id := "R", parent_instance_id := none, completed_at := none },
       { id := "C2", parent_instance_id := some "R", completed_at := none },
       { id := "C1", parent_instance_id := some "R", completed_at := none }],
    pending_events := [] }

end Sqlite

/-! ## Scheduling an activity (`workflow/activity.go`)

The packages `command`, `args`, `fn` and the command functions of
`workflowstate` are outside the embedded files. The result of
`a.ArgsToInputs` is the argument `inputs` (an error or the inputs), the result
of `fn.Name` is the argument `name`, and `command.NewScheduleActivityTaskCommand`
is the parameter `newCommand`. `ctx.Done()` is `none` for nil and else a
channel of the embedding above; `c.ReceiveNonBlocking(ctx)` with two results
is the method `ReceiveNonblocking` of that channel.
-/

namespace Workflow

open Sync

/-- Modelled from the spec: the states of a command (section 3: Pending,
Committed, Canceled); the `command` package is outside the embedded files. -/
inductive CommandState where
  | CommandState_Pending
  | CommandState_Committed
  | CommandState_Canceled
  deriving DecidableEq, Repr

/-- Modelled from the spec: a command with its state and payload (section 3);
`ID` is the schedule-event id it was created with. -/
structure Command (I : Type) where
  ID : Nat
  State : CommandState
  Name : String
  Inputs : I
  deriving DecidableEq, Repr

/-- The error values of `executeActivity`: `sync.Canceled`, and
`errors.Wrap(err, msg)` of a conversion error `err`. -/
inductive WfError where
  | Canceled
  | Wrap (err : String) (msg : String)
  deriving DecidableEq, Repr

/-- Modelled from the spec: the part of the workflow state used when an
activity is scheduled (section 3, WorkflowState): `next_schedule_event_id`,
`commands` and `tracked_futures`. -/
structure WfState (T I : Type) where
  scheduleEventID : Nat
  commands : List (Command I)
  futures : Nat → Option (futureImpl T WfError)

variable {T I : Type}

/-- Modelled from the spec: `GetNextScheduleEventID` hands out the value of
the counter and increments it (section 4.C: a monotonic counter, incremented
whenever the workflow schedules anything). -/
def WfState.GetNextScheduleEventID (wf : WfState T I) : Nat × WfState T I :=
  (wf.scheduleEventID, { wf with scheduleEventID := wf.scheduleEventID + 1 })

/-- Modelled from the spec: `AddCommand` appends to the ordered list of
commands (section 4.C). -/
def WfState.AddCommand (wf : WfState T I) (cmd : Command I) : WfState T I :=
  { wf with commands := wf.commands ++ [cmd] }

/-- Modelled from the spec: `TrackFuture` maps the schedule-event id to the
future (section 4.C). -/
def WfState.TrackFuture (wf : WfState T I) (id : Nat) (f : futureImpl T WfError) :
    WfState T I :=
  { wf with futures := fun k => if k = id then some f else wf.futures k }

/-- Modelled from the spec: `RemoveFuture` drops the entry of the
schedule-event id from the tracked futures. -/
def WfState.RemoveFuture (wf : WfState T I) (id : Nat) : WfState T I :=
  { wf with futures := fun k => if k = id then none else wf.futures k }

/-- Modelled from the spec: `RemoveCommand` withdraws the command from the
list of commands (section 5: pending commands may be withdrawn). -/
def WfState.RemoveCommand [DecidableEq I] (wf : WfState T I) (cmd : Command I) : WfState T I :=
  { wf with commands := wf.commands.erase cmd }

/-- The part of a workflow context read by `executeActivity`: the result of
`ctx.Done()`. -/
structure Context where
  Done : Option (channel Unit)

/-- A context that is not canceled: `Done()` is nil, or the Done channel is
open; nothing is ever sent on a Done channel, so it holds no value and no
sender. -/
def Context.notCanceled (ctx : Context) : Prop :=
  ctx.Done = none ∨
    ∃ c, ctx.Done = some c ∧ c.closed = false ∧ c.c = [] ∧ c.senders = []

/-- Go: `executeActivity`. The result is the future returned, the workflow
state and the context after the call. -/
def executeActivity [Inhabited T] [DecidableEq I]
    (newCommand : Nat → String → I → Command I) (ctx : Context) (wf : WfState T I)
    (name : String) (inputs : Except String I) :
    futureImpl T WfError × WfState T I × Context :=
  let f := NewFuture T WfError
  match inputs with
  | Except.error err =>
    ((f.Set default (some (WfError.Wrap err "failed to convert activity input"))).stateOf,
      wf, ctx)
  | Except.ok inputs =>
    let next := wf.GetNextScheduleEventID
    let scheduleEventID := next.1
    let cmd := newCommand scheduleEventID name inputs
    let wf2 := next.2.AddCommand cmd
    let wf3 := wf2.TrackFuture scheduleEventID f
    match ctx.Done with
    | none => (f, wf3, ctx)
    | some c =>
      match c.ReceiveNonblocking with
      | (some _, c1) =>
        if cmd.State ≠ CommandState.CommandState_Committed then
          let wf4 := wf3.RemoveFuture scheduleEventID
          let wf5 := wf4.RemoveCommand cmd
          ((f.Set default (some WfError.Canceled)).stateOf, wf5, { Done := some c1 })
        else
          (f, wf3, { Done := some c1 })
      | (none, c1) => (f, wf3, { Done := some c1 })

/-- A constructor of schedule-activity commands in state Pending. -/
def exNewCommand (id : Nat) (name : String) (inputs : List Nat) : Command (List Nat) :=
  { ID := id, State := CommandState.CommandState_Pending, Name := name, Inputs := inputs }

/-- A workflow state with one earlier command, the counter at 1. -/
def exWfState : WfState Nat (List Nat) :=
  { scheduleEventID := 1, commands := [exNewCommand 0 "Activity0" []],
    futures := fun k => if k = 0 then some (NewFuture Nat WfError) else none }

/-- A context whose Done channel has been closed. -/
def exCanceled : Context :=
  { Done := some (NewChannel Unit).Close.stateOf }

/-- A context whose Done channel is open. -/
def exOpen : Context :=
  { Done := some (NewChannel Unit) }

end Workflow

/-! ## The timer sample (`samples/timer/timer.go`)

`Workflow1` is embedded from its first statement to its return, as one pass:
from its entry to its return or to the `cs.Yield()` of `Select`. Its log lines
are left out. `workflow.ExecuteActivity`, `workflow.WithCancel`,
`workflow.ScheduleTimer` and the cancel function are outside the embedded
files and are modelled from the spec. The handler of the timer case has the
handle 0, that of the activity case the handle 1; `cb` is the handle of the
callback `ScheduleTimer` parks on the Done channel of its context. The result
of `fn.Name(Activity1)` is the argument `name`, that of converting the
arguments 35 and 12 is `inputs`, and the workflow time is `now`, in seconds.
-/

namespace TimerSample

open Sync Workflow

variable {I : Type}

/-- How a handler, and how a pass of `Workflow1`, ends: at a `Yield`, with the
values returned, with `panic(err)` of the activity handler, or with a panic of
the runtime. -/
inductive WorkflowStep where
  | yielded
  | finished (result : String) (err : Option WfError)
  | panicked (err : WfError)
  | crashed (msg : String)
  deriving DecidableEq, Repr

/-- Modelled from the spec: `workflow.ExecuteActivity` schedules the activity
and returns its future (section 6); `withRetries` is outside the embedded
files, and the attempt it makes when called is `executeActivity`. -/
def ExecuteActivity [DecidableEq I] (newCommand : Nat → String → I → Command I)
    (ctx : Context) (wf : WfState Int I) (name : String) (inputs : Except String I) :
    futureImpl Int WfError × WfState Int I × Context :=
  executeActivity newCommand ctx wf name inputs

/-- Modelled from the spec: `WithCancel` returns a child context whose cancel
function closes `Done` (section 4.B). The child has a Done channel of its own,
open when it is returned. -/
def WithCancel (_ctx : Context) : Context :=
  { Done := some (NewChannel Unit) }

/-- What `ScheduleTimer` leaves behind: the future it returns, the command
and the schedule-event id its cancellation callback captures, the workflow
state, and its context. -/
structure Scheduled (I : Type) where
  f : futureImpl Int WfError
  cmd : Command I
  scheduleEventID : Nat
  wf : WfState Int I
  ctx : Context

/-- Modelled from the spec: the callback `ScheduleTimer` hands to
`ReceiveNonBlocking` on the Done channel, after the idiom of
`createSubWorkflowInstance` (section 5: a command not yet committed is
withdrawn when its initiator observes cancellation; section 7: `Canceled` is
returned from `Get` on a future whose command was withdrawn). A committed
command is left alone. -/
def timerCanceled [DecidableEq I] (cmd : Command I) (scheduleEventID : Nat)
    (f : futureImpl Int WfError) (wf : WfState Int I) :
    Outcome (futureImpl Int WfError × WfState Int I) Unit :=
  if cmd.State = CommandState.CommandState_Committed then
    Outcome.ok () (f, wf)
  else
    let wf1 := wf.RemoveFuture scheduleEventID
    let wf2 := wf1.RemoveCommand cmd
    match f.Set default (some WfError.Canceled) with
    | Outcome.panic msg f1 => Outcome.panic msg (f1, wf2)
    | Outcome.ok _ f1 => Outcome.ok () (f1, wf2)

/-- Modelled from the spec: `ScheduleTimer(ctx, delay)` emits a schedule-timer
command with the target time `now + delay` and returns a future tracked under
the schedule-event id of the command (section 4.B); cancellation of the
context reaches it through the callback it hands to `ReceiveNonBlocking` on
the Done channel, which runs at once when the context is canceled already and
is parked else. `newTimerCommand` stands for the constructor of the command. -/
def ScheduleTimer [DecidableEq I] (newTimerCommand : Nat → Nat → Command I) (cb : Nat)
    (ctx : Context) (wf : WfState Int I) (now delay : Nat) : Outcome (Scheduled I) Unit :=
  let f := NewFuture Int WfError
  let next := wf.GetNextScheduleEventID
  let scheduleEventID := next.1
  let cmd := newTimerCommand scheduleEventID (now + delay)
  let wf2 := next.2.AddCommand cmd
  let wf3 := wf2.TrackFuture scheduleEventID f
  match ctx.Done with
  | none =>
    Outcome.ok () { f := f, cmd := cmd, scheduleEventID := scheduleEventID, wf := wf3, ctx := ctx }
  | some c =>
    match c.ReceiveNonBlocking cb with
    | (true, c1) =>
      match timerCanceled cmd scheduleEventID f wf3 with
      | Outcome.panic msg r =>
        Outcome.panic msg
          { f := r.1, cmd := cmd, scheduleEventID := scheduleEventID, wf := r.2,
            ctx := { Done := some c1 } }
      | Outcome.ok _ r =>
        Outcome.ok ()
          { f := r.1, cmd := cmd, scheduleEventID := scheduleEventID, wf := r.2,
            ctx := { Done := some c1 } }
    | (false, c1) =>
      Outcome.ok ()
        { f := f, cmd := cmd, scheduleEventID := scheduleEventID, wf := wf3,
          ctx := { Done := some c1 } }

/-- Modelled from the spec: the cancel function returned by `WithCancel`
closes the Done channel of the child context (section 4.B). `Close` invokes
the receiver callbacks parked on the channel; the callback of the timer
scheduled under the context runs when `Close` invoked the handle `cb`. -/
def cancel [DecidableEq I] (cb : Nat) (s : Scheduled I) : Outcome (Scheduled I) Unit :=
  match s.ctx.Done with
  | none => Outcome.ok () s
  | some c =>
    match c.Close with
    | Outcome.panic msg c1 => Outcome.panic msg { s with ctx := { Done := some c1 } }
    | Outcome.ok _ c1 =>
      if Call.receiver cb Iface.nil ∈ c1.calls.drop c.calls.length then
        match timerCanceled s.cmd s.scheduleEventID s.f s.wf with
        | Outcome.panic msg r =>
          Outcome.panic msg { s with f := r.1, wf := r.2, ctx := { Done := some c1 } }
        | Outcome.ok _ r =>
          Outcome.ok () { s with f := r.1, wf := r.2, ctx := { Done := some c1 } }
      else
        Outcome.ok () { s with ctx := { Done := some c1 } }

/-- The handler of `workflow.Await(t, ...)`: `f.Get(ctx, nil)`, then a log
line in either branch; `none` when it returns, else how it leaves. -/
def timerHandler (assign : Int → Int × Option WfError) (f : futureImpl Int WfError) :
    Option WorkflowStep :=
  match (f.Get assign).1 with
  | GetStep.returned _ _ => none
  | GetStep.yielded => some WorkflowStep.yielded

/-- The handler of `workflow.Await(a1, ...)`: `f.Get(ctx, &r)`, `panic(err)`
on an error, else a log line. -/
def activityHandler (assign : Int → Int × Option WfError) (f : futureImpl Int WfError) :
    Option WorkflowStep :=
  match (f.Get assign).1 with
  | GetStep.returned _ (some err) => some (WorkflowStep.panicked err)
  | GetStep.returned _ none => none
  | GetStep.yielded => some WorkflowStep.yielded

/-- The handlers invoked by `Select`, run in order. -/
def runHandlers (assign : Int → Int × Option WfError) (t a1 : futureImpl Int WfError) :
    List Nat → Option WorkflowStep
  | [] => none
  | fn :: rest =>
    match (if fn = 0 then timerHandler assign t else activityHandler assign a1) with
    | some s => some s
    | none => runHandlers assign t a1 rest

/-- The statements of `Workflow1` from `workflow.Select` on, for the futures
`t` and `a1` as the statements before have left them: one pass of `Select`
over the timer case and the activity case, the handler of the case handled,
and `return "result", nil`. -/
def selectAndReturn (assign : Int → Int × Option WfError) (t a1 : futureImpl Int WfError) :
    WorkflowStep :=
  let s := Select [selectorCase.futureCase t 0, selectorCase.futureCase a1 1]
  match s.step with
  | SendStep.yielded => WorkflowStep.yielded
  | SendStep.returned =>
    match runHandlers assign t a1 (s.calls.map Prod.snd) with
    | some r => r
    | none => WorkflowStep.finished "result" none

/-- Go: `Workflow1`. The result is how the pass ends and the workflow state
it leaves. -/
def Workflow1 [DecidableEq I] (newCommand : Nat → String → I → Command I)
    (newTimerCommand : Nat → Nat → Command I) (assign : Int → Int × Option WfError)
    (now cb : Nat) (name : String) (inputs : Except String I) (ctx : Context)
    (wf : WfState Int I) (_msg : String) : WorkflowStep × WfState Int I :=
  let r := ExecuteActivity newCommand ctx wf name inputs
  let a1 := r.1
  let tctx := WithCancel r.2.2
  match ScheduleTimer newTimerCommand cb tctx r.2.1 now 2 with
  | Outcome.panic msg s => (WorkflowStep.crashed msg, s.wf)
  | Outcome.ok _ s =>
    match cancel cb s with
    | Outcome.panic msg s1 => (WorkflowStep.crashed msg, s1.wf)
    | Outcome.ok _ s1 => (selectAndReturn assign s1.f a1, s1.wf)

/-- The future of `Activity1(35, 12)` after it completed with 47 and no
error. -/
def exActivityDone : futureImpl Int WfError :=
  ((NewFuture Int WfError).Set 47 none).stateOf

/-- The future of the timer after the timer was canceled. -/
def exTimerCanceled : futureImpl Int WfError :=
  ((NewFuture Int WfError).Set 0 (some WfError.Canceled)).stateOf

/-- A constructor of schedule-timer commands in state Pending; the target
time is the payload. -/
def exNewTimerCommand (id : Nat) (at_ : Nat) : Command (List Nat) :=
  { ID := id, State := CommandState.CommandState_Pending, Name := "timer", Inputs := [at_] }

/-- A constructor of schedule-timer commands in state Committed. -/
def exCommittedTimerCommand (id : Nat) (at_ : Nat) : Command (List Nat) :=
  { ID := id, State := CommandState.CommandState_Committed, Name := "timer", Inputs := [at_] }

/-- The workflow state at the start of a run: no command, no tracked future,
the counter at 0. -/
def exFresh : WfState Int (List Nat) :=
  { scheduleEventID := 0, commands := [], futures := fun _ => none }

end TimerSample

/-! ## Sequences of signals -/

namespace Workflowstate

open Sync

variable {P T : Type}

/-- The workflow state after `ReceiveSignal` has been called for each payload
of the list in turn, for as long as the calls return; the state at the panic
when one of them panics. -/
def ReceiveSignals (decode : P → Option T) (name : String) :
    List P → WfState P T → Outcome (WfState P T) Unit
  | [], wf => Outcome.ok () wf
  | arg :: rest, wf =>
    match ReceiveSignal decode wf name arg with
    | Outcome.panic msg wf1 => Outcome.panic msg wf1
    | Outcome.ok _ wf1 => ReceiveSignals decode name rest wf1

/-- The workflow calls `Close` on the signal channel it holds for `name`. -/
def closeSignalChannel (wf : WfState P T) (name : String) : WfState P T :=
  match wf.signalChannels name with
  | some c => { wf with signalChannels := wf.signalChannels.set name c.Close.stateOf }
  | none => wf

/-- The empty state after `GetSignalChannel "go"`. -/
def exCreated : WfState String String :=
  (GetSignalChannel some (emptyWfState String String) "go" 0).stateOf

/-- The state `exCreated` after the workflow has closed its channel for
`"go"`. -/
def exCreatedClosed : WfState String String :=
  closeSignalChannel exCreated "go"

end Workflowstate

/-! ## Sequences of channel operations -/

namespace Sync

variable {T : Type}

/-- One step on a channel: a call of a method, or the continuation of a
blocking `Send` or `Receive` after a return of `cr.Yield()`. -/
inductive ChanOp (T : Type) where
  | Send (cb : Nat) (v : T)
  | SendResume (cb : Nat) (v : T)
  | SendNonblocking (v : T)
  | Receive (cb : Nat)
  | ReceiveResume (cb : Nat)
  | ReceiveNonblocking
  | ReceiveNonBlocking (cb : Nat)
  | Close
  deriving DecidableEq, Repr

/-- The channel after one step, whether the step returned, yielded or
panicked. -/
def channel.apply [DecidableEq T] (c : channel T) : ChanOp T → channel T
  | ChanOp.Send cb v => (c.Send cb v).stateOf
  | ChanOp.SendResume cb v => (c.SendResume cb v).stateOf
  | ChanOp.SendNonblocking v => (c.SendNonblocking v).stateOf
  | ChanOp.Receive cb => (c.Receive cb).2
  | ChanOp.ReceiveResume cb => (c.ReceiveResume cb).2
  | ChanOp.ReceiveNonblocking => c.ReceiveNonblocking.2
  | ChanOp.ReceiveNonBlocking cb => (c.ReceiveNonBlocking cb).2
  | ChanOp.Close => c.Close.stateOf

/-- The channel after a sequence of steps. -/
def channel.applyAll [DecidableEq T] (c : channel T) (ops : List (ChanOp T)) : channel T :=
  ops.foldl channel.apply c

/-- The state invariant of a channel: the buffer holds at most `size` values,
and when a receiver is parked the buffer is empty and no sender is parked. -/
def channel.Invariant (c : channel T) : Prop :=
  c.c.length ≤ c.size ∧ (c.receivers ≠ [] → c.c = [] ∧ c.senders = [])

/-- The channel `exParked` after a receive has taken 10 from the buffer and
the parked `Send` of 20 has been resumed. -/
def exResumed : channel Nat :=
  ((exParked.Receive 2).2.SendResume 1 20).stateOf

end Sync

/-! ## The coroutine (`pkg/workflow/coroutine.go`)

Two goroutines act on a `coState`: the goroutine `newCoroutine` starts, which
runs `fn` and then the deferred `finished`, and the scheduler, which calls
`cont`. A state of the two holds the `coState` and, for each goroutine, the
statement it executes next; a step is one statement of one goroutine.

* `blocking` is made with capacity 1: a send on it is enabled while its buffer
  is empty, a receive while it is not.
* `unblock` is made without a buffer: its send in `cont` and its receive in
  `yield` take place together, as one step, when both goroutines stand at
  them.
* The coroutine function `fn` is the list of its statements: work of its own,
  and calls of `yield`.
* The `select` of `cont` has the single case `<-s.blocking` and is that
  receive.
-/

namespace Coroutine

/-- A statement of a coroutine function: a step of its own work, or a call of
`yield`. -/
inductive Stmt where
  | work
  | yield
  deriving DecidableEq, Repr

/-- The struct `coState`: the buffer of `blocking`, oldest element first, and
the values stored in `blocked` and `done`. -/
structure coState where
  blocking : List Bool
  blocked : Bool
  done : Bool
  deriving DecidableEq, Repr

/-- The statement the goroutine of the coroutine executes next: a statement
of `fn` (with the statements of `fn` still to execute), one of the four
statements of `yield` (called from `fn` with `rest` still to execute), one of
the two statements of `finished`, or none after `finished` returned. -/
inductive CoPoint where
  | fn (rest : List Stmt)
  | yield_store (rest : List Stmt)
  | yield_send (rest : List Stmt)
  | yield_receive (rest : List Stmt)
  | yield_clear (rest : List Stmt)
  | finished_store
  | finished_send
  | exited
  deriving DecidableEq, Repr

/-- The statement the scheduler executes next: code of its own, outside
`cont`, or one of the two statements of `cont`. -/
inductive SchedPoint where
  | scheduler
  | cont_send
  | cont_receive
  deriving DecidableEq, Repr

/-- A state of the two goroutines. -/
structure System where
  s : coState
  co : CoPoint
  sched : SchedPoint
  deriving DecidableEq, Repr

/-- Go: `newCoroutine`, at its return: both channels are empty, `blocked` and
`done` hold false, the goroutine has been started and stands at the first
statement of `fn`, and the caller goes on with its own code. -/
def newCoroutine (fn : List Stmt) : System :=
  { s := { blocking := [], blocked := false, done := false },
    co := CoPoint.fn fn, sched := SchedPoint.scheduler }

/-- The next statement of the goroutine of the coroutine, `none` when it
cannot execute it now. In `fn`: a step of work, the call of `yield`, or the
return of `fn`, after which the deferred `finished` runs. Go: `yield` is
`s.blocked.Store(true)`, `s.blocking <- true`, `<-s.unblock`,
`s.blocked.Store(false)`; `finished` is `s.done.Store(true)`,
`s.blocking <- true`. -/
def System.coroutineStep (sys : System) : Option System :=
  match sys.co with
  | CoPoint.fn (Stmt.work :: rest) => some { sys with co := CoPoint.fn rest }
  | CoPoint.fn (Stmt.yield :: rest) => some { sys with co := CoPoint.yield_store rest }
  | CoPoint.fn [] => some { sys with co := CoPoint.finished_store }
  | CoPoint.yield_store rest =>
    some { sys with s := { sys.s with blocked := true }, co := CoPoint.yield_send rest }
  | CoPoint.yield_send rest =>
    if sys.s.blocking.length < 1 then
      some { sys with
        s := { sys.s with blocking := sys.s.blocking ++ [true] },
        co := CoPoint.yield_receive rest }
    else
      none
  | CoPoint.yield_receive rest =>
    match sys.sched with
    | SchedPoint.cont_send =>
      some { sys with co := CoPoint.yield_clear rest, sched := SchedPoint.cont_receive }
    | _ => none
  | CoPoint.yield_clear rest =>
    some { sys with s := { sys.s with blocked := false }, co := CoPoint.fn rest }
  | CoPoint.finished_store =>
    some { sys with s := { sys.s with done := true }, co := CoPoint.finished_send }
  | CoPoint.finished_send =>
    if sys.s.blocking.length < 1 then
      some { sys with
        s := { sys.s with blocking := sys.s.blocking ++ [true] },
        co := CoPoint.exited }
    else
      none
  | CoPoint.exited => none

/-- The next statement of the scheduler, `none` when it cannot execute it
now. From its own code it calls `cont`. Go: `cont` is `s.unblock <- true`,
then the receive `<-s.blocking`, after which `cont` returns. -/
def System.schedulerStep (sys : System) : Option System :=
  match sys.sched with
  | SchedPoint.scheduler => some { sys with sched := SchedPoint.cont_send }
  | SchedPoint.cont_send =>
    match sys.co with
    | CoPoint.yield_receive rest =>
      some { sys with co := CoPoint.yield_clear rest, sched := SchedPoint.cont_receive }
    | _ => none
  | SchedPoint.cont_receive =>
    match sys.s.blocking with
    | _ :: rest =>
      some { sys with s := { sys.s with blocking := rest }, sched := SchedPoint.scheduler }
    | [] => none

/-- The two goroutines. -/
inductive Goroutine where
  | coroutine
  | scheduler
  deriving DecidableEq, Repr

/-- One step: the goroutine `g` executes its next statement. -/
def System.step (sys : System) : Goroutine → Option System
  | Goroutine.coroutine => sys.coroutineStep
  | Goroutine.scheduler => sys.schedulerStep

/-- The state after the goroutines of the list have each executed a statement,
in that order; `none` when one of them could not. -/
def System.steps (sys : System) : List Goroutine → Option System
  | [] => some sys
  | g :: rest =>
    match sys.step g with
    | some sys1 => sys1.steps rest
    | none => none

/-- The coroutine function is running: the goroutine stands at a statement of
`fn`. -/
def System.fnRuns (sys : System) : Bool :=
  match sys.co with
  | CoPoint.fn (_ :: _) => true
  | _ => false

/-- The scheduler is running: it stands in its own code, outside `cont`. -/
def System.schedulerRuns (sys : System) : Bool :=
  match sys.sched with
  | SchedPoint.scheduler => true
  | _ => false

/-- A coroutine function: work, a call of `yield`, work. -/
def exFn : List Stmt :=
  [Stmt.work, Stmt.yield, Stmt.work]

/-- The coroutine runs to the receive of its first `yield` (work, the call,
the store, the send on `blocking`); the scheduler then calls `cont`, whose
send meets that receive, and executes the receive of `cont`. -/
def exFirstCont : List Goroutine :=
  [Goroutine.coroutine, Goroutine.coroutine, Goroutine.coroutine, Goroutine.coroutine,
   Goroutine.scheduler, Goroutine.scheduler, Goroutine.scheduler]

end Coroutine

/-! ## Properties of channels -/

namespace Sync

variable {T : Type}

theorem closeLoop_eq (rs : List Nat) (c : channel T) (h : c.receivers = rs) :
    c.closeLoop rs =
      { c with receivers := [], calls := c.calls ++ rs.map (fun r => Call.receiver r Iface.nil) } := by
  induction rs generalizing c with
  | nil =>
    cases c
    simp_all [channel.closeLoop]
  | cons r rs ih =>
    rw [channel.closeLoop, ih _ rfl]
    simp

theorem receiveN_buffer (n : Nat) (c : channel T) (h : n ≤ c.c.length) :
    c.receiveN n =
      ((c.c.take n).map (fun v => some (Iface.val v)), { c with c := c.c.drop n }) := by
  induction n generalizing c with
  | zero => simp [channel.receiveN]
  | succ n ih =>
    obtain ⟨b, rcv, snd, cl, sz, calls⟩ := c
    cases b with
    | nil => simp at h
    | cons v rest =>
      simp only [List.length_cons, Nat.add_le_add_iff_right] at h
      have h2 := ih ⟨rest, rcv, snd, cl, sz, calls⟩ h
      simp [channel.receiveN, channel.ReceiveNonblocking, channel.tryReceive, h2]

end Sync

namespace Sync

variable {T : Type}

/-- C3 (evaluation at the failing input). On a buffered channel of size 1 the
values 10, 20, 30 are sent in this order: `Send 10` is buffered, `Send 20`
parks, a receive takes 10, and `Send 30`, issued while the sender of 20 is
still parked, is buffered. The next two receives return 30 and then 20, so the
values are received in the order 10, 30, 20. -/
theorem later_send_overtakes_parked_sender :
    (NewBufferedChannel Nat 1).Send 0 10 = Outcome.ok SendStep.returned exFull ∧
    exFull.Send 1 20 = Outcome.ok SendStep.yielded exParked ∧
    (exParked.Receive 2).1 = RecvStep.returned (Iface.val 10) true ∧
    ((exParked.Receive 2).2.Send 3 30).stateOf.senders = [(1, 20)] ∧
    (exParked.Receive 2).2.Send 3 30 =
      Outcome.ok SendStep.returned ((exParked.Receive 2).2.Send 3 30).stateOf ∧
    (((exParked.Receive 2).2.Send 3 30).stateOf.Receive 4).1 =
      RecvStep.returned (Iface.val 30) true ∧
    ((((exParked.Receive 2).2.Send 3 30).stateOf.Receive 4).2.Receive 5).1 =
      RecvStep.returned (Iface.val 20) true := by
  decide

/-- C4. Receive precedence of `tryReceive`, reached through `ReceiveNonblocking`
and through the first attempt of `Receive`: (1) a non-empty buffer gives up its
oldest value and nothing else changes, parked senders included; (2) else a
closed channel yields `nil` (the zero value) and is unchanged; (3) else the
earliest parked sender is removed and invoked, and its value is received;
(4) else nothing is received: `ReceiveNonblocking` reports false and leaves the
channel unchanged, and `Receive` parks. -/
theorem receive_precedence (c : channel T) (cb : Nat) :
    (∀ v rest, c.c = v :: rest →
      c.ReceiveNonblocking = (some (Iface.val v), { c with c := rest }) ∧
      (∃ more, (c.Receive cb).1 = RecvStep.returned (Iface.val v) more) ∧
      (c.Receive cb).2 = { c with c := rest }) ∧
    (c.c = [] → c.closed = true →
      c.ReceiveNonblocking = (some Iface.nil, c) ∧
      (∃ more, (c.Receive cb).1 = RecvStep.returned Iface.nil more) ∧
      (c.Receive cb).2 = c) ∧
    (∀ s ss, c.c = [] → c.closed = false → c.senders = s :: ss →
      c.ReceiveNonblocking =
        (some (Iface.val s.2), { c with senders := ss, calls := c.calls ++ [Call.sender s.1] }) ∧
      (∃ more, (c.Receive cb).1 = RecvStep.returned (Iface.val s.2) more) ∧
      (c.Receive cb).2 = { c with senders := ss, calls := c.calls ++ [Call.sender s.1] }) ∧
    (c.c = [] → c.closed = false → c.senders = [] →
      c.ReceiveNonblocking = (none, c) ∧
      c.Receive cb = (RecvStep.yielded, { c with receivers := c.receivers ++ [cb] })) := by
  obtain ⟨b, rcv, snd, cl, sz, calls⟩ := c
  refine ⟨?_, ?_, ?_, ?_⟩
  · intro v rest h
    simp only at h
    subst h
    simp [channel.ReceiveNonblocking, channel.Receive, channel.tryReceive]
  · intro hb hc
    simp only at hb hc
    subst hb hc
    simp [channel.ReceiveNonblocking, channel.Receive, channel.tryReceive]
  · intro s ss hb hc hs
    simp only at hb hc hs
    subst hb hc hs
    simp [channel.ReceiveNonblocking, channel.Receive, channel.tryReceive]
  · intro hb hc hs
    simp only at hb hc hs
    subst hb hc hs
    simp [channel.ReceiveNonblocking, channel.Receive, channel.tryReceive]

/-- Witness for C4: each of the four cases at a concrete channel. -/
theorem receive_precedence_witness :
    (exParked.ReceiveNonblocking = (some (Iface.val 10), { exParked with c := [] }) ∧
      (exParked.ReceiveNonblocking).2.senders = [(1, 20)]) ∧
    exClosed.ReceiveNonblocking = (some Iface.nil, exClosed) ∧
    exSender.ReceiveNonblocking =
      (some (Iface.val 20), { exSender with senders := [], calls := [Call.sender 1] }) ∧
    (NewChannel Nat).ReceiveNonblocking = (none, NewChannel Nat) :=
  ⟨⟨((receive_precedence exParked 0).1 10 [] rfl).1, by decide⟩,
   ((receive_precedence exClosed 0).2.1 rfl rfl).1,
   ((receive_precedence exSender 0).2.2.1 (1, 20) [] rfl rfl rfl).1,
   ((receive_precedence (NewChannel Nat) 0).2.2.2 rfl rfl rfl).1⟩

/-- C5 (evaluation at the failing input). The channel `exClosedFull` is closed
and still buffers 10; `Receive` drains 10 from the buffer and returns it with
`more = false`. -/
theorem receive_buffered_value_more_false :
    exFull.Close = Outcome.ok () exClosedFull ∧
    exClosedFull.closed = true ∧ exClosedFull.c = [10] ∧
    exClosedFull.Receive 1 =
      (RecvStep.returned (Iface.val 10) false, { exClosedFull with c := [] }) := by
  decide

/-- C6. On a closed channel `Send` and `SendNonblocking` panic, and the channel
at the panic is the channel before the call: buffer, parked receivers and
parked senders are unchanged. -/
theorem send_on_closed_panics (c : channel T) (cb : Nat) (v : T) (h : c.closed = true) :
    c.Send cb v = Outcome.panic "channel closed" c ∧
    c.SendNonblocking v = Outcome.panic "channel closed" c := by
  simp [channel.Send, channel.SendNonblocking, channel.trySend, h]

/-- Witness for C6 at a channel closed by `Close` that still buffers a value. -/
theorem send_on_closed_panics_witness :
    exClosedFull.closed = true ∧
    exClosedFull.Send 3 30 = Outcome.panic "channel closed" exClosedFull ∧
    exClosedFull.SendNonblocking 30 = Outcome.panic "channel closed" exClosedFull :=
  ⟨by decide, send_on_closed_panics exClosedFull 3 30 (by decide)⟩

/-- C7. On an open channel whose parked receivers are `r :: rs`, `Send` and
`SendNonblocking` invoke `r` with `v`, leave `rs` parked, change nothing else
(the buffer in particular, whatever its free capacity) and return at once:
`Send` does not reach `cr.Yield()` and registers no sender. -/
theorem send_hands_off_to_first_receiver (c : channel T) (cb : Nat) (v : T) (r : Nat)
    (rs : List Nat) (hopen : c.closed = false) (hr : c.receivers = r :: rs) :
    c.Send cb v = Outcome.ok SendStep.returned
      { c with receivers := rs, calls := c.calls ++ [Call.receiver r (Iface.val v)] } ∧
    c.SendNonblocking v = Outcome.ok true
      { c with receivers := rs, calls := c.calls ++ [Call.receiver r (Iface.val v)] } := by
  simp [channel.Send, channel.SendNonblocking, channel.trySend, hopen, hr]

/-- Witness for C7 at a buffered channel of free capacity with two parked
receivers. -/
theorem send_hands_off_to_first_receiver_witness :
    exReceiversBuffered.Send 9 30 = Outcome.ok SendStep.returned
      { c := [], receivers := [5], senders := [], closed := false, size := 3,
        calls := [Call.receiver 4 (Iface.val 30)] } ∧
    exReceiversBuffered.SendNonblocking 30 = Outcome.ok true
      { c := [], receivers := [5], senders := [], closed := false, size := 3,
        calls := [Call.receiver 4 (Iface.val 30)] } :=
  send_hands_off_to_first_receiver exReceiversBuffered 9 30 4 [5] rfl rfl

/-- C8. On an open channel with no parked receiver, `SendNonblocking v` returns
true exactly when the buffer holds fewer than `size` values, and then `v` is
appended to the buffer and nothing else changes; otherwise it returns false and
the channel is unchanged. With `size = 0` it returns false. -/
theorem sendNonblocking_capacity (c : channel T) (v : T) (hopen : c.closed = false)
    (hr : c.receivers = []) :
    ((∃ c1, c.SendNonblocking v = Outcome.ok true c1) ↔ c.c.length < c.size) ∧
    (c.c.length < c.size →
      c.SendNonblocking v = Outcome.ok true { c with c := c.c ++ [v] }) ∧
    (¬ c.c.length < c.size → c.SendNonblocking v = Outcome.ok false c) ∧
    (c.size = 0 → c.SendNonblocking v = Outcome.ok false c) := by
  by_cases hcap : c.c.length < c.size
  · simp [channel.SendNonblocking, channel.trySend, channel.hasCapacity, hopen, hr, hcap]
    omega
  · simp [channel.SendNonblocking, channel.trySend, channel.hasCapacity, hopen, hr, hcap]

/-- Witness for C8: an empty buffered channel of size 1 accepts 10, and the
full channel it becomes refuses 30. -/
theorem sendNonblocking_capacity_witness :
    (NewBufferedChannel Nat 1).SendNonblocking 10 = Outcome.ok true exFull ∧
    exFull.SendNonblocking 30 = Outcome.ok false exFull ∧
    (NewChannel Nat).SendNonblocking 30 = Outcome.ok false (NewChannel Nat) :=
  ⟨(sendNonblocking_capacity (NewBufferedChannel Nat 1) 10 rfl rfl).2.1 (by decide),
   (sendNonblocking_capacity exFull 30 rfl rfl).2.2.1 (by decide),
   (sendNonblocking_capacity (NewChannel Nat) 30 rfl rfl).2.2.2 rfl⟩

/-- C9. `Close` panics exactly when a sender is parked. With no parked sender
it returns with the channel marked closed, every parked receiver invoked once
with `nil` (the zero value) in registration order, no receiver left parked,
and the buffer, like everything else, unchanged. -/
theorem close_unblocks_receivers (c : channel T) :
    ((∃ msg c1, c.Close = Outcome.panic msg c1) ↔ 0 < c.senders.length) ∧
    (c.senders = [] →
      c.Close = Outcome.ok ()
        { c with closed := true, receivers := [],
                 calls := c.calls ++ c.receivers.map (fun r => Call.receiver r Iface.nil) }) := by
  by_cases hs : 0 < c.senders.length
  · have hne : c.senders ≠ [] := by
      intro h
      simp [h] at hs
    simp [channel.Close, hs, hne]
  · have he : c.senders = [] := by
      cases hc : c.senders with
      | nil => rfl
      | cons a l => simp [hc] at hs
    simp [channel.Close, he, closeLoop_eq _ _ rfl]

/-- Witness for C9: closing the channel with the parked receivers 4 and 5. -/
theorem close_unblocks_receivers_witness :
    exReceivers.Close = Outcome.ok ()
      { c := [], receivers := [], senders := [], closed := true, size := 0,
        calls := [Call.receiver 4 Iface.nil, Call.receiver 5 Iface.nil] } :=
  (close_unblocks_receivers exReceivers).2 rfl

/-- C10. `Set` on a future that is already set panics and leaves the future
(value, error and ready flag) unchanged; in particular a second `Set` after a
successful one does. `Set` on an unset future stores the value and the error
and makes `Ready` true. -/
theorem future_set_single_shot {E : Type} (f : futureImpl T E) (v : T) (err : Option E) :
    (f.hasValue = true → f.Set v err = Outcome.panic "future already set" f) ∧
    (f.hasValue = false →
      f.Set v err = Outcome.ok () { hasValue := true, v := v, err := err } ∧
      (f.Set v err).stateOf.Ready = true ∧
      ∀ v2 err2, (f.Set v err).stateOf.Set v2 err2 =
        Outcome.panic "future already set" { hasValue := true, v := v, err := err }) := by
  constructor
  · intro h
    simp [futureImpl.Set, h]
  · intro h
    simp [futureImpl.Set, h, Outcome.stateOf, futureImpl.Ready]

/-- Witness for C10: a new future, set once and then a second time. -/
theorem future_set_single_shot_witness :
    (NewFuture Nat String).Set 7 none = Outcome.ok () { hasValue := true, v := 7, err := none } ∧
    ({ hasValue := true, v := 7, err := none } : futureImpl Nat String).Set 8 (some "e") =
      Outcome.panic "future already set" { hasValue := true, v := 7, err := none } :=
  ⟨((future_set_single_shot (NewFuture Nat String) 7 none).2 rfl).1,
   (future_set_single_shot { hasValue := true, v := 7, err := none } 8 (some "e")).1 rfl⟩

end Sync

/-! ## Properties of signal channels -/

namespace Workflowstate

open Sync

variable {P T : Type}

theorem sendPending_buffers (decode : P → Option T) (cb : Nat) (ps : List P) :
    ∀ (vs : List T) (c : channel T), c.closed = false → c.receivers = [] →
      c.c.length + ps.length ≤ c.size → ps.map decode = vs.map some →
      sendPending decode cb c ps = Outcome.ok SendStep.returned { c with c := c.c ++ vs } := by
  induction ps with
  | nil =>
    intro vs c _ _ _ hd
    cases vs with
    | nil => simp [sendPending]
    | cons v vs => simp at hd
  | cons p ps ih =>
    intro vs c hopen hr hn hd
    cases vs with
    | nil => simp at hd
    | cons v vs =>
      simp only [List.map_cons, List.cons.injEq] at hd
      simp only [List.length_cons] at hn
      have hcap : c.c.length < c.size := by omega
      have hstep : c.Send cb v = Outcome.ok SendStep.returned { c with c := c.c ++ [v] } := by
        simp [channel.Send, channel.trySend, channel.hasCapacity, hopen, hr, hcap]
      have hrec := ih vs { c with c := c.c ++ [v] } hopen hr (by simp; omega) hd.2
      rw [sendPending, hd.1]
      simp only [hstep]
      simpa using hrec

/-- On a name without a signal channel `ReceiveSignal` returns and leaves
every signal channel as it was; the pending entry of the name afterwards is
the entry before the call, or the empty slice when there was none: `arg` is
in neither. -/
theorem ReceiveSignal_without_channel (decode : P → Option T) (wf : WfState P T)
    (name : String) (arg : P) (hch : wf.signalChannels name = none) :
    ∃ wf1, ReceiveSignal decode wf name arg = Outcome.ok () wf1 ∧
      wf1.signalChannels = wf.signalChannels ∧
      wf1.pendingSignals name = some ((wf.pendingSignals name).getD []) := by
  cases hp : wf.pendingSignals name with
  | none => simp [ReceiveSignal, hch, hp, GoMap.set]
  | some ps => simp [ReceiveSignal, hch, hp]

/-- C1 (evaluation at the failing input). The signal `"go"` with payload
`"X"` reaches a state with no signal channel; `ReceiveSignal` leaves an empty
pending entry, `GetSignalChannel "go"` then returns an empty channel, and
`ReceiveNonblocking` on it receives nothing. -/
theorem signal_before_receiver_is_lost :
    exSignalled.pendingSignals "go" = some [] ∧
    exSignalChannel.signalChannels "go" = some (NewBufferedChannel String 10000) ∧
    (exSignalChannel.signalChannels "go").map (fun c => c.ReceiveNonblocking.1) = some none := by
  decide

/-- The loop of `GetSignalChannel` on any pending entry. For a name with no
signal channel yet whose pending entry holds `ps` in arrival order, with at
most 10000 payloads that decode to `vs`, `GetSignalChannel` returns without
yielding, the channel it returns buffers the decoded payloads in reverse
arrival order, successive receives yield them in that reverse order, and the
pending entry of the name is gone. -/
theorem pending_signals_delivered_in_reverse (decode : P → Option T) (wf : WfState P T)
    (name : String) (cb : Nat) (ps : List P) (vs : List T)
    (hch : wf.signalChannels name = none) (hp : wf.pendingSignals name = some ps)
    (hn : ps.length ≤ 10000) (hd : ps.map decode = vs.map some) :
    ∃ wf1, GetSignalChannel decode wf name cb = Outcome.ok SendStep.returned wf1 ∧
      wf1.signalChannels name = some { NewBufferedChannel T 10000 with c := vs.reverse } ∧
      (({ NewBufferedChannel T 10000 with c := vs.reverse } : channel T).receiveN ps.length).1 =
        vs.reverse.map (fun v => some (Iface.val v)) ∧
      wf1.pendingSignals name = none := by
  have hlen : ps.length = vs.length := by
    have := congrArg List.length hd
    simpa using this
  have hsend := sendPending_buffers decode cb ps.reverse vs.reverse (NewBufferedChannel T 10000)
    rfl rfl (by simp [NewBufferedChannel]; omega)
    (by rw [List.map_reverse, hd, List.map_reverse])
  have hg : GetSignalChannel decode wf name cb = Outcome.ok SendStep.returned
      { signalChannels :=
          (wf.signalChannels.set name (NewBufferedChannel T 10000)).set name
            { NewBufferedChannel T 10000 with c := vs.reverse },
        pendingSignals := wf.pendingSignals.delete name } := by
    simp only [GetSignalChannel, hch, hp, hsend]
    simp [NewBufferedChannel]
  refine ⟨_, hg, ?_, ?_, ?_⟩
  · simp [GoMap.set]
  · rw [receiveN_buffer _ _ (by simp [hlen])]
    simp [hlen]
  · simp [GoMap.delete]

/-- The loop of `GetSignalChannel` on the pending signals 1 then 2 under
`"go"`. -/
theorem pending_signals_delivered_in_reverse_witness :
    ∃ wf1, GetSignalChannel some (pendingOnly Nat Nat "go" [1, 2]) "go" 0 =
        Outcome.ok SendStep.returned wf1 ∧
      wf1.signalChannels "go" = some { NewBufferedChannel Nat 10000 with c := [2, 1] } ∧
      (({ NewBufferedChannel Nat 10000 with c := [2, 1] } : channel Nat).receiveN 2).1 =
        [some (Iface.val 2), some (Iface.val 1)] ∧
      wf1.pendingSignals "go" = none :=
  pending_signals_delivered_in_reverse some (pendingOnly Nat Nat "go" [1, 2]) "go" 0 [1, 2] [1, 2]
    rfl rfl (by decide) rfl

end Workflowstate

/-! ## Properties of futures and selectors -/

namespace Sync

variable {T E : Type}

theorem scan_none_ready (cases : List (selectorCase T E)) (h : ∀ c ∈ cases, c.Ready = false) :
    ∀ k, Select.scan k cases = { calls := [], step := SendStep.yielded } := by
  induction cases with
  | nil => intro k; rfl
  | cons c cs ih =>
    intro k
    have hc : c.Ready = false := h c (List.mem_cons_self _ _)
    simp only [Select.scan, hc]
    exact ih (fun d hd => h d (List.mem_cons_of_mem _ hd)) (k + 1)

theorem scan_first_ready (pre : List (selectorCase T E)) (c : selectorCase T E)
    (post : List (selectorCase T E)) (hpre : ∀ d ∈ pre, d.Ready = false)
    (hc : c.Ready = true) :
    ∀ k, Select.scan k (pre ++ c :: post) =
      { calls := [(k + pre.length, c.Handle)], step := SendStep.returned } := by
  induction pre with
  | nil => intro k; simp [Select.scan, hc]
  | cons d ds ih =>
    intro k
    have hd : d.Ready = false := hpre d (List.mem_cons_self _ _)
    have hrec := ih (fun e he => hpre e (List.mem_cons_of_mem _ he)) (k + 1)
    simp only [List.cons_append, Select.scan, hd, Bool.false_eq_true, if_false]
    change Select.scan (k + 1) (ds ++ c :: post) = _
    rw [hrec, List.length_cons]
    congr 3
    omega

theorem split_first_ready (cases : List (selectorCase T E))
    (h : ∃ c ∈ cases, c.Ready = true) :
    ∃ pre c post, cases = pre ++ c :: post ∧ (∀ d ∈ pre, d.Ready = false) ∧ c.Ready = true := by
  induction cases with
  | nil => simp at h
  | cons a as ih =>
    by_cases ha : a.Ready = true
    · exact ⟨[], a, as, rfl, by simp, ha⟩
    · have ha2 : a.Ready = false := by simpa using ha
      obtain ⟨c, hc, hr⟩ := h
      have hc2 : c ∈ as := by
        rcases List.mem_cons.mp hc with h1 | h1
        · rw [h1, ha2] at hr
          cases hr
        · exact h1
      obtain ⟨pre, c1, post, he, hp, hr1⟩ := ih ⟨c, hc2, hr⟩
      refine ⟨a :: pre, c1, post, by simp [he], ?_, hr1⟩
      intro d hd
      rcases List.mem_cons.mp hd with h1 | h1
      · rw [h1]; exact ha2
      · exact hp d h1

theorem scan_readiness_only (cases : List (selectorCase T E)) :
    ∀ (cases2 : List (selectorCase T E)) (k : Nat),
      cases2.map selectorCase.Ready = cases.map selectorCase.Ready →
      (Select.scan k cases2).calls.map Prod.fst = (Select.scan k cases).calls.map Prod.fst ∧
      (Select.scan k cases2).step = (Select.scan k cases).step := by
  induction cases with
  | nil =>
    intro cases2 k h
    cases cases2 with
    | nil => exact ⟨rfl, rfl⟩
    | cons a as => simp at h
  | cons c cs ih =>
    intro cases2 k h
    cases cases2 with
    | nil => simp at h
    | cons a as =>
      simp only [List.map_cons, List.cons.injEq] at h
      cases hc : c.Ready with
      | true =>
        have ha : a.Ready = true := by rw [h.1, hc]
        simp [Select.scan, hc, ha]
      | false =>
        have ha : a.Ready = false := by rw [h.1, hc]
        simp only [Select.scan, hc, ha, Bool.false_eq_true, if_false]
        exact ih as (k + 1) h.2

/-- C11. After `Set(v, err)` on an unset future, a pass of `Get` returns
without yielding: `(v, nil)` when `err` is nil (the converter assigning `v`
to the result without error) and the zero value with `err` when it is not;
the future after `Get` is the future before it, so a later `Get` returns the
same; `Ready` of a new future is false. -/
theorem future_get_after_set [Inhabited T] (assign : T → T × Option E)
    (f0 f : futureImpl T E) (v : T) (err : Option E)
    (hset : f0.Set v err = Outcome.ok () f) (hassign : assign v = (v, none)) :
    (err = none → f.Get assign = (GetStep.returned v none, f)) ∧
    (∀ e, err = some e → f.Get assign = (GetStep.returned default (some e), f)) ∧
    (f.Get assign).2 = f ∧
    (f.Get assign).2.Get assign = f.Get assign ∧
    (NewFuture T E).Ready = false := by
  have hf : f = { hasValue := true, v := v, err := err } := by
    unfold futureImpl.Set at hset
    split at hset
    · cases hset
    · simp only [Outcome.ok.injEq, true_and] at hset
      exact hset.symm
  subst hf
  have h2 : ∀ g : futureImpl T E, (g.Get assign).2 = g := by
    intro g
    unfold futureImpl.Get
    split
    · split <;> rfl
    · rfl
  refine ⟨?_, ?_, h2 _, by rw [h2], rfl⟩
  · intro he
    subst he
    simp [futureImpl.Get, hassign]
  · intro e he
    subst he
    simp [futureImpl.Get]

/-- Witness for C11: a new future set to 7 without an error, and `Get` on it. -/
theorem future_get_after_set_witness :
    (exReadyFuture.Get (fun v => (v, (none : Option String)))) =
      (GetStep.returned 7 none, exReadyFuture) ∧
    (NewFuture Nat String).Ready = false :=
  ⟨(future_get_after_set (fun v => (v, none)) (NewFuture Nat String) exReadyFuture 7 none
      rfl rfl).1 rfl,
   (future_get_after_set (fun v => (v, none)) (NewFuture Nat String) exReadyFuture 7 none
      rfl rfl).2.2.2.2⟩

/-- C12. When some case is ready, a pass of `Select` invokes exactly one
handler, that of the first case in list order whose `Ready` is true, and
returns without yielding; on any list of cases with the same readiness at
every position it invokes the handler at the same position. -/
theorem select_first_ready_case (cases : List (selectorCase T E))
    (h : ∃ c ∈ cases, c.Ready = true) :
    (∃ pre c post, cases = pre ++ c :: post ∧ (∀ d ∈ pre, d.Ready = false) ∧
      c.Ready = true ∧
      Select cases = { calls := [(pre.length, c.Handle)], step := SendStep.returned }) ∧
    (∀ cases2 : List (selectorCase T E),
      cases2.map selectorCase.Ready = cases.map selectorCase.Ready →
      (Select cases2).calls.map Prod.fst = (Select cases).calls.map Prod.fst ∧
      (Select cases2).step = (Select cases).step) := by
  constructor
  · obtain ⟨pre, c, post, he, hp, hc⟩ := split_first_ready cases h
    refine ⟨pre, c, post, he, hp, hc, ?_⟩
    rw [he, Select, scan_first_ready pre c post hp hc 0]
    simp
  · intro cases2 h2
    exact scan_readiness_only cases cases2 0 h2

/-- Witness for C12: an unset future, then a channel with a buffered value,
then a default case; the ready default case discharges the hypothesis. -/
theorem select_first_ready_case_witness :
    (∃ pre c post, exCases = pre ++ c :: post ∧ (∀ d ∈ pre, d.Ready = false) ∧
      c.Ready = true ∧
      Select exCases = { calls := [(pre.length, c.Handle)], step := SendStep.returned }) ∧
    (∀ cases2 : List (selectorCase Nat String),
      cases2.map selectorCase.Ready = exCases.map selectorCase.Ready →
      (Select cases2).calls.map Prod.fst = (Select exCases).calls.map Prod.fst ∧
      (Select cases2).step = (Select exCases).step) :=
  select_first_ready_case exCases ⟨selectorCase.defaultCase 13, by decide, rfl⟩

/-- C13 (counterexample). A default case placed before a future case that is
ready: `Select` invokes the default handler although a future case is ready. -/
theorem select_default_before_ready_future :
    (selectorCase.futureCase exReadyFuture 21).Ready = true ∧
    Select [selectorCase.defaultCase 20, selectorCase.futureCase exReadyFuture 21] =
      { calls := [(0, 20)], step := SendStep.returned } := by
  decide

/-- C13 (amended). `Select` invokes the handler of a default case exactly when
no case standing before it in the list is ready; so a default case placed
last is invoked exactly when no other case is ready. When no case is ready,
hence no default case is in the list, `Select` invokes nothing and yields. -/
theorem select_default_by_position (pre post : List (selectorCase T E)) (fn : Nat) :
    (Select (pre ++ selectorCase.defaultCase fn :: post) =
        { calls := [(pre.length, fn)], step := SendStep.returned } ↔
      ∀ c ∈ pre, c.Ready = false) ∧
    (∀ cases : List (selectorCase T E), (∀ c ∈ cases, c.Ready = false) →
      Select cases = { calls := [], step := SendStep.yielded }) := by
  constructor
  · constructor
    · intro hsel
      by_contra hne
      have hex : ∃ c ∈ pre, c.Ready = true := by
        by_contra hno
        apply hne
        intro c hc
        cases hr : c.Ready with
        | false => rfl
        | true => exact absurd ⟨c, hc, hr⟩ hno
      obtain ⟨p1, c, p2, he, hp, hc⟩ := split_first_ready pre hex
      have hs := scan_first_ready p1 c (p2 ++ selectorCase.defaultCase fn :: post) hp hc 0
      rw [Select, he] at hsel
      simp only [List.append_assoc, List.cons_append] at hsel
      rw [hs] at hsel
      simp at hsel
    · intro hp
      rw [Select, scan_first_ready pre (selectorCase.defaultCase fn) post hp rfl 0]
      simp [selectorCase.Handle]
  · intro cases hc
    exact scan_none_ready cases hc 0

/-- Witness for the amended C13: a default case after an unset future is
invoked; a list with only an unset future yields. -/
theorem select_default_by_position_witness :
    Select [selectorCase.futureCase (NewFuture Nat String) 11, selectorCase.defaultCase 13] =
      { calls := [(1, 13)], step := SendStep.returned } ∧
    Select [selectorCase.futureCase (NewFuture Nat String) 11] =
      { calls := [], step := SendStep.yielded } :=
  ⟨(select_default_by_position [selectorCase.futureCase (NewFuture Nat String) 11] [] 13).1.2
      (by decide),
   (select_default_by_position ([] : List (selectorCase Nat String)) [] 0).2
      [selectorCase.futureCase (NewFuture Nat String) 11] (by decide)⟩

end Sync

/-! ## Properties of the in-memory backend -/

namespace Memory

open Workflowstate (GoMap)

theorem queueWorkflowTask_frame (mb : memoryBackend) (now : Nat) (wfi : WorkflowInstance) :
    (mb.queueWorkflowTask now wfi).stateOf.instances = mb.instances ∧
    (mb.queueWorkflowTask now wfi).stateOf.lockedWorkflows = mb.lockedWorkflows := by
  unfold memoryBackend.queueWorkflowTask
  cases mb.instances wfi.InstanceID with
  | none => exact ⟨rfl, rfl⟩
  | some inst =>
    simp only
    split
    · exact ⟨rfl, rfl⟩
    · split
      · exact ⟨rfl, rfl⟩
      · split <;> exact ⟨rfl, rfl⟩

theorem queueWorkflowTask_ok_frame {mb mb2 : memoryBackend} {now : Nat} {wfi : WorkflowInstance}
    {r : Unit} (h : mb.queueWorkflowTask now wfi = Outcome.ok r mb2) :
    mb2.instances = mb.instances ∧ mb2.lockedWorkflows = mb.lockedWorkflows := by
  have hf := queueWorkflowTask_frame mb now wfi
  rw [h] at hf
  exact hf

theorem modifyInstance_at {mb : memoryBackend} {id : String} {inst : workflowState}
    (f : workflowState → workflowState) (hi : mb.instances id = some inst) :
    (mb.modifyInstance id f).instances id = some (f inst) ∧
    (mb.modifyInstance id f).lockedWorkflows = mb.lockedWorkflows := by
  simp [memoryBackend.modifyInstance, hi, GoMap.set]

theorem handleNewEvent_ok {mb mb2 : memoryBackend} {wfi : WorkflowInstance} {wc wc2 : Bool}
    {event : Event} {inst : workflowState} (hi : mb.instances wfi.InstanceID = some inst)
    (h : mb.handleNewEvent wfi wc event = Outcome.ok wc2 mb2) :
    mb2.instances wfi.InstanceID = some { inst with NewEvents := inst.NewEvents ++ [event] } ∧
    mb2.lockedWorkflows = mb.lockedWorkflows ∧
    wc2 = (wc || finishes [event]) := by
  unfold memoryBackend.handleNewEvent at h
  cases hty : event.EventType <;> simp only [hty] at h
  case TimerScheduled =>
    cases hat : event.Attributes <;> simp only [hat] at h
    case TimerScheduledAttributes a =>
      simp only [Outcome.ok.injEq] at h
      obtain ⟨h1, h2⟩ := h
      subst h1 h2
      have hi2 : ({ mb with timers := mb.timers ++ [(wfi, a)] } : memoryBackend).instances
          wfi.InstanceID = some inst := hi
      have hm := modifyInstance_at (fun s => { s with NewEvents := s.NewEvents ++ [event] }) hi2
      exact ⟨hm.1, hm.2, by simp [finishes, hty]⟩
    case other d => cases h
  case ActivityScheduled =>
    by_cases hcap : mb.activities.length < capacity
    · rw [if_pos hcap] at h
      simp only [Outcome.ok.injEq] at h
      obtain ⟨h1, h2⟩ := h
      subst h1 h2
      have hi2 : ({ mb with
          activities := mb.activities ++
            [{ WorkflowInstance := wfi, ID := mb.uuids, Event := event }],
          uuids := mb.uuids + 1 } : memoryBackend).instances wfi.InstanceID = some inst := hi
      have hm := modifyInstance_at (fun s => { s with NewEvents := s.NewEvents ++ [event] }) hi2
      exact ⟨hm.1, hm.2, by simp [finishes, hty]⟩
    · rw [if_neg hcap] at h
      cases h
  all_goals
    simp only [Outcome.ok.injEq] at h
    obtain ⟨h1, h2⟩ := h
    subst h1 h2
    have hm := modifyInstance_at (fun s => { s with NewEvents := s.NewEvents ++ [event] }) hi
    exact ⟨hm.1, hm.2, by simp [finishes, hty]⟩

theorem handleNewEvents_ok (wfi : WorkflowInstance) (events : List Event) :
    ∀ {mb mb2 : memoryBackend} {wc wc2 : Bool} {inst : workflowState},
      mb.instances wfi.InstanceID = some inst →
      handleNewEvents wfi events mb wc = Outcome.ok wc2 mb2 →
      mb2.instances wfi.InstanceID = some { inst with NewEvents := inst.NewEvents ++ events } ∧
      mb2.lockedWorkflows = mb.lockedWorkflows ∧
      wc2 = (wc || finishes events) := by
  induction events with
  | nil =>
    intro mb mb2 wc wc2 inst hi h
    simp only [handleNewEvents, Outcome.ok.injEq] at h
    obtain ⟨h1, h2⟩ := h
    subst h1 h2
    simp [hi, finishes]
  | cons e es ih =>
    intro mb mb2 wc wc2 inst hi h
    rw [handleNewEvents] at h
    cases hstep : mb.handleNewEvent wfi wc e with
    | panic msg mb1 => rw [hstep] at h; cases h
    | blocked mb1 => rw [hstep] at h; cases h
    | ok wc1 mb1 =>
      rw [hstep] at h
      obtain ⟨ha, hb, hc⟩ := handleNewEvent_ok hi hstep
      obtain ⟨hd, he, hf⟩ := ih ha h
      refine ⟨?_, by rw [he, hb], ?_⟩
      · rw [hd]; simp
      · rw [hf, hc]; simp [finishes, Bool.or_assoc]

theorem handleMessage_ok {mb mb2 : memoryBackend} {now : Nat} {m : TaskMessage} {id : String}
    {inst : workflowState} (hi : mb.instances id = some inst)
    (h : mb.handleMessage now m = Outcome.ok () mb2) :
    mb2.instances id = some { inst with NewEvents := inst.NewEvents ++ messagesFor id [m] } ∧
    mb2.lockedWorkflows = mb.lockedWorkflows := by
  unfold memoryBackend.handleMessage at h
  have hq := queueWorkflowTask_ok_frame h
  by_cases hid : m.WorkflowInstance.InstanceID = id
  · subst hid
    simp only [hi] at hq
    simp [hq.1, hq.2, GoMap.set, messagesFor]
  · have hid2 : ¬ id = m.WorkflowInstance.InstanceID := fun hc => hid hc.symm
    cases hm : mb.instances m.WorkflowInstance.InstanceID with
    | none =>
      simp only [hm] at hq
      simp [hq.1, hq.2, GoMap.set, messagesFor, hid, hid2, hi]
    | some st =>
      simp only [hm] at hq
      simp [hq.1, hq.2, GoMap.set, messagesFor, hid, hid2, hi]

theorem handleMessages_ok (now : Nat) (id : String) (msgs : List TaskMessage) :
    ∀ {mb mb2 : memoryBackend} {inst : workflowState},
      mb.instances id = some inst →
      handleMessages now msgs mb = Outcome.ok () mb2 →
      mb2.instances id = some { inst with NewEvents := inst.NewEvents ++ messagesFor id msgs } ∧
      mb2.lockedWorkflows = mb.lockedWorkflows := by
  induction msgs with
  | nil =>
    intro mb mb2 inst hi h
    simp only [handleMessages, Outcome.ok.injEq, true_and] at h
    subst h
    simp [hi, messagesFor]
  | cons m ms ih =>
    intro mb mb2 inst hi h
    rw [handleMessages] at h
    cases hstep : mb.handleMessage now m with
    | panic msg mb1 => rw [hstep] at h; cases h
    | blocked mb1 => rw [hstep] at h; cases h
    | ok r mb1 =>
      rw [hstep] at h
      obtain ⟨ha, hb⟩ := handleMessage_ok hi hstep
      obtain ⟨hc, hd⟩ := ih ha h
      refine ⟨?_, by rw [hd, hb]⟩
      rw [hc]
      simp only [messagesFor, List.filter_cons, List.append_assoc]
      split <;> simp

theorem CompleteWorkflowTask_ok {mb mb2 : memoryBackend} {now : Nat} {t : Workflow}
    {newEvents : List Event} {msgs : List TaskMessage}
    (h : mb.CompleteWorkflowTask now t newEvents msgs = Outcome.ok none mb2) :
    ∃ inst, mb.instances t.WorkflowInstance.InstanceID = some inst ∧
      mb2.instances t.WorkflowInstance.InstanceID = some
        { Status := if finishes newEvents then workflowStatus.workflowStatusCompleted
            else inst.Status,
          Instance := inst.Instance,
          History := inst.History ++ inst.NewEvents.filter (handled t),
          NewEvents := inst.NewEvents.filter (fun event => !handled t event) ++ newEvents ++
            messagesFor t.WorkflowInstance.InstanceID msgs,
          CreatedAt := inst.CreatedAt } ∧
      mb2.lockedWorkflows t.WorkflowInstance.InstanceID = none ∧
      mb.lockedWorkflows t.WorkflowInstance.InstanceID ≠ none := by
  unfold memoryBackend.CompleteWorkflowTask at h
  simp only at h
  cases hl : mb.lockedWorkflows t.WorkflowInstance.InstanceID with
  | none => rw [hl] at h; cases h
  | some b =>
    rw [hl] at h
    simp only at h
    cases hinst : mb.instances t.WorkflowInstance.InstanceID with
    | none => rw [hinst] at h; cases h
    | some inst =>
      rw [hinst] at h
      simp only at h
      refine ⟨inst, rfl, ?_⟩
      generalize hmb1 : ({ mb with instances := (mb.instances.set t.WorkflowInstance.InstanceID
        { inst with
          History := inst.History ++ inst.NewEvents.filter (handled t),
          NewEvents := inst.NewEvents.filter (fun event => !handled t event) }) } :
        memoryBackend) = mb1 at h
      have hi1 : mb1.instances t.WorkflowInstance.InstanceID = some
          { inst with
            History := inst.History ++ inst.NewEvents.filter (handled t),
            NewEvents := inst.NewEvents.filter (fun event => !handled t event) } := by
        rw [← hmb1]; simp [GoMap.set]
      have hl1 : mb1.lockedWorkflows = mb.lockedWorkflows := by rw [← hmb1]
      cases hne : handleNewEvents t.WorkflowInstance newEvents mb1 false with
      | panic msg mb2a => rw [hne] at h; cases h
      | blocked mb2a => rw [hne] at h; cases h
      | ok wc mb2a =>
        rw [hne] at h
        simp only at h
        obtain ⟨hi2, hl2, hwc⟩ := handleNewEvents_ok t.WorkflowInstance newEvents hi1 hne
        cases hms : handleMessages now msgs mb2a with
        | panic msg mb3 => rw [hms] at h; cases h
        | blocked mb3 => rw [hms] at h; cases h
        | ok r mb3 =>
          rw [hms] at h
          simp only at h
          obtain ⟨hi3, hl3⟩ := handleMessages_ok now t.WorkflowInstance.InstanceID msgs hi2 hms
          simp only [Bool.false_or] at hwc
          subst hwc
          cases hfin : finishes newEvents with
          | true =>
            simp only [hfin, Bool.not_true, Bool.false_eq_true, if_false, Outcome.ok.injEq,
              true_and] at h
            subst h
            have hi4 : ({ mb3 with lockedWorkflows :=
                mb3.lockedWorkflows.delete t.WorkflowInstance.InstanceID } :
                memoryBackend).instances t.WorkflowInstance.InstanceID = _ := hi3
            have hm := modifyInstance_at
              (fun s => { s with Status := workflowStatus.workflowStatusCompleted }) hi4
            refine ⟨?_, ?_, by simp⟩
            · rw [hm.1]; simp
            · rw [hm.2]; simp [GoMap.delete]
          | false =>
            simp only [hfin, Bool.not_false, if_true, hi3] at h
            split at h
            · cases hq : ({ mb3 with lockedWorkflows :=
                  mb3.lockedWorkflows.delete t.WorkflowInstance.InstanceID } :
                  memoryBackend).queueWorkflowTask now t.WorkflowInstance with
              | panic msg mb5 => rw [hq] at h; cases h
              | blocked mb5 => rw [hq] at h; cases h
              | ok r5 mb5 =>
                rw [hq] at h
                simp only [Outcome.ok.injEq, true_and] at h
                subst h
                obtain ⟨hq1, hq2⟩ := queueWorkflowTask_ok_frame hq
                refine ⟨?_, ?_, by simp⟩
                · rw [hq1]; simp [hi3]
                · rw [hq2]; simp [GoMap.delete]
            · simp only [Outcome.ok.injEq, true_and] at h
              subst h
              refine ⟨?_, ?_, by simp⟩
              · simp [hi3]
              · simp [GoMap.delete]

/-- C14 (evaluation at the failing input). `"A"` is created and its task
leased, so `"A"` is in `lockedWorkflows`; `SignalWorkflow` on `"A"` then
queues a second task for `"A"` while it is still locked, and the next
`GetWorkflowTask` hands that task out. -/
theorem signal_queues_task_for_locked_instance :
    (run exLeased).lockedWorkflows "A" = some true ∧
    (run exLeased).workflows = [] ∧
    (run exSignalWhileLocked).lockedWorkflows "A" = some true ∧
    (run exSignalWhileLocked).workflows.map (fun t => t.WorkflowInstance.InstanceID) = ["A"] ∧
    (run exSignalWhileLocked).GetWorkflowTask.1.map (fun t => t.WorkflowInstance.InstanceID) =
      some "A" := by
  decide

/-- C17 (evaluation at the failing input). `"A"` is created, its task leased
and completed with a `WorkflowExecutionFinished` event, which marks `"A"`
completed and queues nothing; `SignalWorkflow` on `"A"` then queues a task
for the completed instance, and `GetWorkflowTask` hands it out. -/
theorem signal_queues_task_for_completed_instance :
    (run (exSignalAfterCompletion.take 3)).workflows = [] ∧
    ((run (exSignalAfterCompletion.take 3)).instances "A").map (fun s => s.Status) =
      some workflowStatus.workflowStatusCompleted ∧
    ((run exSignalAfterCompletion).instances "A").map (fun s => s.Status) =
      some workflowStatus.workflowStatusCompleted ∧
    (run exSignalAfterCompletion).workflows.map (fun t => t.WorkflowInstance.InstanceID) = ["A"] ∧
    (run exSignalAfterCompletion).GetWorkflowTask.1.map (fun t => t.WorkflowInstance.InstanceID) =
      some "A" := by
  decide

/-- C15 (counterexample). In `run exSecondLease` the instance `"A"` is locked
with history `[e1]`; completing the task `exTask`, whose `NewEvents` is
`[e1]`, a second time succeeds and leaves the history `[e1]`: it did not grow
by the event of `t.NewEvents`. -/
theorem history_unchanged_by_stale_task :
    ((run exSecondLease).instances "A").map (fun s => s.History) =
      some [exEvent "e1" EventType.WorkflowExecutionStarted] ∧
    exTask.NewEvents = [exEvent "e1" EventType.WorkflowExecutionStarted] ∧
    ((run exSecondLease).CompleteWorkflowTask 4 exTask [] []).retOf = some none ∧
    (((run exSecondLease).CompleteWorkflowTask 4 exTask [] []).stateOf.instances "A").map
      (fun s => s.History) = some [exEvent "e1" EventType.WorkflowExecutionStarted] := by
  decide

/-- C15 (amended). When `CompleteWorkflowTask` succeeds on a task `t`, the
history of the instance afterwards is its history before followed by its
pending events whose id occurs in `t.NewEvents`, in pending order, so no
history entry is changed or removed; when those pending events are the events
of `t.NewEvents` in their order, the history grows by exactly `t.NewEvents`
and its length by `|t.NewEvents|`. -/
theorem history_grows_by_handled_pending {mb mb2 : memoryBackend} {now : Nat} {t : Workflow}
    {newEvents : List Event} {msgs : List TaskMessage}
    (h : mb.CompleteWorkflowTask now t newEvents msgs = Outcome.ok none mb2) :
    ∃ inst inst2, mb.instances t.WorkflowInstance.InstanceID = some inst ∧
      mb2.instances t.WorkflowInstance.InstanceID = some inst2 ∧
      inst2.History = inst.History ++ inst.NewEvents.filter (handled t) ∧
      (inst.NewEvents.filter (handled t) = t.NewEvents →
        inst2.History = inst.History ++ t.NewEvents ∧
        inst2.History.length = inst.History.length + t.NewEvents.length) := by
  obtain ⟨inst, hi, hi2, _, _⟩ := CompleteWorkflowTask_ok h
  refine ⟨inst, _, hi, hi2, rfl, ?_⟩
  intro heq
  simp [heq]

/-- Witness for the amended C15: the first task of `"A"` completed while its
start event is still pending. -/
theorem history_grows_by_handled_pending_witness :
    ∃ inst inst2, (run exLeased).instances exTask.WorkflowInstance.InstanceID = some inst ∧
      ((run exLeased).CompleteWorkflowTask 2 exTask [] []).stateOf.instances
        exTask.WorkflowInstance.InstanceID = some inst2 ∧
      inst2.History = inst.History ++ inst.NewEvents.filter (handled exTask) ∧
      (inst.NewEvents.filter (handled exTask) = exTask.NewEvents →
        inst2.History = inst.History ++ exTask.NewEvents ∧
        inst2.History.length = inst.History.length + exTask.NewEvents.length) :=
  history_grows_by_handled_pending
    (show (run exLeased).CompleteWorkflowTask 2 exTask [] [] =
      Outcome.ok none ((run exLeased).CompleteWorkflowTask 2 exTask [] []).stateOf from rfl)

/-- C16 (counterexample). Completing the first task of `"A"` with no produced
event and one message addressed to `"A"` itself: the start event was pending
and is handled, so the retained pending events followed by the produced events
are the empty list, yet the pending list afterwards holds the event of the
message; when the message carries the handled start event again, that event
is pending afterwards. -/
theorem pending_holds_self_message :
    ((run exLeased).instances "A").map (fun s => s.NewEvents) =
      some [exEvent "e1" EventType.WorkflowExecutionStarted] ∧
    handled exTask (exEvent "e1" EventType.WorkflowExecutionStarted) = true ∧
    ((run exLeased).CompleteWorkflowTask 2 exTask [] [exSelfMessage]).retOf = some none ∧
    (((run exLeased).CompleteWorkflowTask 2 exTask [] [exSelfMessage]).stateOf.instances
      "A").map (fun s => s.NewEvents) = some [exEvent "e5" EventType.SubWorkflowCompleted] ∧
    ((run exLeased).CompleteWorkflowTask 2 exTask [] [exSelfRepeat]).retOf = some none ∧
    (((run exLeased).CompleteWorkflowTask 2 exTask [] [exSelfRepeat]).stateOf.instances
      "A").map (fun s => s.NewEvents) =
        some [exEvent "e1" EventType.WorkflowExecutionStarted] := by
  decide

/-- C16 (amended). After a successful `CompleteWorkflowTask` for a task `t`,
every pending event whose id is in `t.NewEvents` is in the history and is not
among the retained pending events, and the pending list is the previously
pending events whose ids are not in `t.NewEvents`, in their order, followed by
the produced `newEvents` in order and then by the events of the messages
addressed to the instance itself; with no such message it is the retained
events followed by `newEvents`. -/
theorem pending_after_complete {mb mb2 : memoryBackend} {now : Nat} {t : Workflow}
    {newEvents : List Event} {msgs : List TaskMessage}
    (h : mb.CompleteWorkflowTask now t newEvents msgs = Outcome.ok none mb2) :
    ∃ inst inst2, mb.instances t.WorkflowInstance.InstanceID = some inst ∧
      mb2.instances t.WorkflowInstance.InstanceID = some inst2 ∧
      (∀ event ∈ inst.NewEvents, event.ID ∈ t.NewEvents.map Event.ID →
        event ∈ inst2.History ∧
        event ∉ inst.NewEvents.filter (fun e => decide (e.ID ∉ t.NewEvents.map Event.ID))) ∧
      inst2.NewEvents =
        inst.NewEvents.filter (fun e => decide (e.ID ∉ t.NewEvents.map Event.ID)) ++ newEvents ++
          messagesFor t.WorkflowInstance.InstanceID msgs ∧
      (messagesFor t.WorkflowInstance.InstanceID msgs = [] →
        inst2.NewEvents =
          inst.NewEvents.filter (fun e => decide (e.ID ∉ t.NewEvents.map Event.ID)) ++
            newEvents) := by
  obtain ⟨inst, hi, hi2, _, _⟩ := CompleteWorkflowTask_ok h
  have hfilter : inst.NewEvents.filter (fun event => !handled t event) =
      inst.NewEvents.filter (fun e => decide (e.ID ∉ t.NewEvents.map Event.ID)) := by
    congr 1
    funext e
    by_cases hx : e.ID ∈ t.NewEvents.map Event.ID
    · simp only [handled, hx, decide_True, Bool.not_true, not_true_eq_false, decide_False]
    · simp only [handled, hx, decide_False, Bool.not_false, not_false_eq_true, decide_True]
  refine ⟨inst, _, hi, hi2, ?_, ?_, ?_⟩
  · intro event hmem hid
    constructor
    · simp only [List.mem_append, List.mem_filter, handled, decide_eq_true_eq]
      exact Or.inr ⟨hmem, hid⟩
    · simp only [List.mem_filter, decide_eq_true_eq, not_and, not_not]
      intro _
      exact hid
  · simp only [hfilter]
  · intro hm
    simp only [hfilter, hm, List.append_nil]

/-- Witness for the amended C16: the first task of `"A"` completed with a
message addressed to `"A"` itself. -/
theorem pending_after_complete_witness :
    ∃ inst inst2, (run exLeased).instances exTask.WorkflowInstance.InstanceID = some inst ∧
      ((run exLeased).CompleteWorkflowTask 2 exTask [] [exSelfMessage]).stateOf.instances
        exTask.WorkflowInstance.InstanceID = some inst2 ∧
      (∀ event ∈ inst.NewEvents, event.ID ∈ exTask.NewEvents.map Event.ID →
        event ∈ inst2.History ∧
        event ∉ inst.NewEvents.filter
          (fun e => decide (e.ID ∉ exTask.NewEvents.map Event.ID))) ∧
      inst2.NewEvents =
        inst.NewEvents.filter (fun e => decide (e.ID ∉ exTask.NewEvents.map Event.ID)) ++ [] ++
          messagesFor exTask.WorkflowInstance.InstanceID [exSelfMessage] ∧
      (messagesFor exTask.WorkflowInstance.InstanceID [exSelfMessage] = [] →
        inst2.NewEvents =
          inst.NewEvents.filter (fun e => decide (e.ID ∉ exTask.NewEvents.map Event.ID)) ++
            []) :=
  pending_after_complete
    (show (run exLeased).CompleteWorkflowTask 2 exTask [] [exSelfMessage] =
      Outcome.ok none ((run exLeased).CompleteWorkflowTask 2 exTask [] [exSelfMessage]).stateOf
      from rfl)

/-- C18. `CompleteWorkflowTask` for a task whose instance is not in
`lockedWorkflows` returns an error and the backend after the call is the
backend before it; when `CompleteWorkflowTask` succeeds, the instance of the
task is not in `lockedWorkflows` afterwards. -/
theorem complete_needs_lock_and_releases_it (mb : memoryBackend) (now : Nat) (t : Workflow)
    (newEvents : List Event) (msgs : List TaskMessage) :
    (mb.lockedWorkflows t.WorkflowInstance.InstanceID = none →
      mb.CompleteWorkflowTask now t newEvents msgs =
        Outcome.ok (some "could not find locked workflow instance") mb) ∧
    (∀ mb2, mb.CompleteWorkflowTask now t newEvents msgs = Outcome.ok none mb2 →
      mb2.lockedWorkflows t.WorkflowInstance.InstanceID = none) := by
  constructor
  · intro hl
    simp [memoryBackend.CompleteWorkflowTask, hl]
  · intro mb2 h
    obtain ⟨_, _, _, hl2, _⟩ := CompleteWorkflowTask_ok h
    exact hl2

/-- Witness for C18: completing `exTask` on the new backend, where nothing is
locked, and on the backend that has leased it. -/
theorem complete_needs_lock_and_releases_it_witness :
    NewMemoryBackend.CompleteWorkflowTask 2 exTask [] [] =
      Outcome.ok (some "could not find locked workflow instance") NewMemoryBackend ∧
    ((run exLeased).CompleteWorkflowTask 2 exTask [] []).stateOf.lockedWorkflows
      exTask.WorkflowInstance.InstanceID = none :=
  ⟨(complete_needs_lock_and_releases_it NewMemoryBackend 2 exTask [] []).1 rfl,
   (complete_needs_lock_and_releases_it (run exLeased) 2 exTask [] []).2 _
     (show (run exLeased).CompleteWorkflowTask 2 exTask [] [] =
       Outcome.ok none ((run exLeased).CompleteWorkflowTask 2 exTask [] []).stateOf from rfl)⟩

theorem Extends.refl (mb : memoryBackend) : Extends mb mb :=
  ⟨fun _ h => h, fun _ h => Or.inl h, fun _ h => Or.inl h⟩

theorem Extends.trans {a b c : memoryBackend} (hab : Extends a b) (hbc : Extends b c) :
    Extends a c := by
  obtain ⟨h1, h2, h3⟩ := hab
  obtain ⟨k1, k2, k3⟩ := hbc
  refine ⟨fun id h => k1 id (h1 id h), ?_, ?_⟩
  · intro id h
    rcases k2 id h with hb | hc
    · rcases h2 id hb with ha | hb2
      · exact Or.inl ha
      · exact Or.inr (k1 id hb2)
    · exact Or.inr hc
  · intro t h
    rcases k3 t h with hb | hc
    · rcases h3 t hb with ha | hb2
      · exact Or.inl ha
      · exact Or.inr (k1 _ hb2)
    · exact Or.inr hc

theorem WellFormed.of_extends {a b : memoryBackend} (ha : WellFormed a) (hab : Extends a b) :
    WellFormed b := by
  obtain ⟨w1, w2⟩ := ha
  obtain ⟨h1, h2, h3⟩ := hab
  constructor
  · intro id h
    rcases h2 id h with hp | hi
    · exact h1 id (w1 id hp)
    · exact hi
  · intro t h
    rcases h3 t h with hp | hi
    · exact h1 _ (w2 t hp)
    · exact hi

theorem Extends.of_same {a b : memoryBackend} (h1 : b.instances = a.instances)
    (h2 : b.pendingWorkflows = a.pendingWorkflows) (h3 : b.workflows = a.workflows) :
    Extends a b := by
  refine ⟨fun id h => by rw [h1]; exact h, fun id h => Or.inl ?_, fun t h => Or.inl ?_⟩
  · simpa [memoryBackend.pending, h2] using h
  · rw [← h3]; exact h

theorem Extends.setInstance (mb : memoryBackend) (id : String) (x : workflowState) :
    Extends mb { mb with instances := mb.instances.set id x } := by
  refine ⟨fun j h => ?_, fun j h => Or.inl h, fun t h => Or.inl h⟩
  simp only [GoMap.set]
  split
  · rfl
  · exact h

theorem Extends.modifyInstance (mb : memoryBackend) (id : String)
    (f : workflowState → workflowState) : Extends mb (mb.modifyInstance id f) := by
  unfold memoryBackend.modifyInstance
  cases mb.instances id with
  | none => exact Extends.refl mb
  | some s => exact Extends.setInstance mb id (f s)

theorem Extends.queueWorkflowTask (mb : memoryBackend) (now : Nat) (wfi : WorkflowInstance) :
    Extends mb (mb.queueWorkflowTask now wfi).stateOf := by
  unfold memoryBackend.queueWorkflowTask
  cases hi : mb.instances wfi.InstanceID with
  | none => exact Extends.refl mb
  | some inst =>
    simp only
    split
    · exact Extends.refl mb
    · split
      · exact Extends.refl mb
      · split
        · refine ⟨fun j h => h, fun j h => ?_, fun t h => ?_⟩
          · simp only [Outcome.stateOf, memoryBackend.pending, GoMap.set] at h ⊢
            by_cases hj : j = wfi.InstanceID
            · right; rw [hj, hi]; rfl
            · left; simpa [hj] using h
          · simp only [Outcome.stateOf, List.mem_append, List.mem_singleton] at h ⊢
            rcases h with h | h
            · exact Or.inl h
            · right; rw [h]; simp [hi]
        · refine ⟨fun j h => h, fun j h => ?_, fun t h => Or.inl h⟩
          simp only [Outcome.stateOf, memoryBackend.pending, GoMap.set] at h ⊢
          by_cases hj : j = wfi.InstanceID
          · right; rw [hj, hi]; rfl
          · left; simpa [hj] using h

theorem Extends.after {a b c : memoryBackend} (hbc : Extends b c) (hab : Extends a b) :
    Extends a c :=
  Extends.trans hab hbc

theorem Extends.handleNewEvent (mb : memoryBackend) (wfi : WorkflowInstance) (wc : Bool)
    (event : Event) : Extends mb (mb.handleNewEvent wfi wc event).stateOf := by
  unfold memoryBackend.handleNewEvent
  cases hty : event.EventType <;> simp only [Outcome.stateOf]
  case TimerScheduled =>
    cases hat : event.Attributes <;> simp only [Outcome.stateOf]
    · exact Extends.after (Extends.modifyInstance _ _ _) (Extends.of_same rfl rfl rfl)
    · exact Extends.refl mb
  case ActivityScheduled =>
    by_cases hcap : mb.activities.length < capacity
    · rw [if_pos hcap]
      exact Extends.after (Extends.modifyInstance _ _ _) (Extends.of_same rfl rfl rfl)
    · rw [if_neg hcap]
      exact Extends.of_same rfl rfl rfl
  all_goals exact Extends.modifyInstance _ _ _

theorem Extends.handleNewEvents (wfi : WorkflowInstance) (events : List Event) :
    ∀ (mb : memoryBackend) (wc : Bool), Extends mb (handleNewEvents wfi events mb wc).stateOf := by
  induction events with
  | nil => intro mb wc; exact Extends.refl mb
  | cons e es ih =>
    intro mb wc
    have h1 := Extends.handleNewEvent mb wfi wc e
    rw [Memory.handleNewEvents]
    cases hstep : mb.handleNewEvent wfi wc e with
    | panic msg mb1 => rw [hstep] at h1; exact h1
    | blocked mb1 => rw [hstep] at h1; exact h1
    | ok wc1 mb1 =>
      rw [hstep] at h1
      exact h1.trans (ih mb1 wc1)

theorem Extends.handleMessage (mb : memoryBackend) (now : Nat) (m : TaskMessage) :
    Extends mb (mb.handleMessage now m).stateOf := by
  unfold memoryBackend.handleMessage
  cases mb.instances m.WorkflowInstance.InstanceID with
  | none =>
    exact ((Extends.setInstance mb _ _).trans (Extends.setInstance _ _ _)).trans
      (Extends.queueWorkflowTask _ _ _)
  | some st =>
    exact (Extends.setInstance mb _ _).trans (Extends.queueWorkflowTask _ _ _)

theorem Extends.handleMessages (now : Nat) (msgs : List TaskMessage) :
    ∀ (mb : memoryBackend), Extends mb (handleMessages now msgs mb).stateOf := by
  induction msgs with
  | nil => intro mb; exact Extends.refl mb
  | cons m ms ih =>
    intro mb
    have h1 := Extends.handleMessage mb now m
    rw [Memory.handleMessages]
    cases hstep : mb.handleMessage now m with
    | panic msg mb1 => rw [hstep] at h1; exact h1
    | blocked mb1 => rw [hstep] at h1; exact h1
    | ok r mb1 =>
      rw [hstep] at h1
      exact h1.trans (ih mb1)

theorem Extends.of_ok {r : Outcome memoryBackend Unit} {mb : memoryBackend}
    (h : Extends mb r.stateOf) :
    Extends mb (match r with
      | Outcome.panic msg mb2 => (Outcome.panic msg mb2 : Outcome memoryBackend (Option String))
      | Outcome.blocked mb2 => Outcome.blocked mb2
      | Outcome.ok _ mb2 => Outcome.ok none mb2).stateOf := by
  cases r with
  | ok ret st => exact h
  | panic msg st => exact h
  | blocked st => exact h

theorem Extends.CreateWorkflowInstance (mb : memoryBackend) (now : Nat) (m : TaskMessage) :
    Extends mb (mb.CreateWorkflowInstance now m).stateOf := by
  unfold memoryBackend.CreateWorkflowInstance
  cases mb.instances m.WorkflowInstance.InstanceID with
  | some st => exact Extends.refl mb
  | none =>
    exact Extends.of_ok ((Extends.setInstance mb _ _).trans (Extends.queueWorkflowTask _ _ _))

theorem Extends.SignalWorkflow (mb : memoryBackend) (now : Nat) (wfi : WorkflowInstance)
    (event : Event) : Extends mb (mb.SignalWorkflow now wfi event).stateOf := by
  unfold memoryBackend.SignalWorkflow
  cases mb.instances wfi.InstanceID with
  | none => exact Extends.refl mb
  | some st =>
    exact Extends.of_ok ((Extends.setInstance mb _ _).trans (Extends.queueWorkflowTask _ _ _))

theorem Extends.CompleteActivityTask (mb : memoryBackend) (now : Nat) (wfi : WorkflowInstance)
    (taskID : Nat) (event : Event) :
    Extends mb (mb.CompleteActivityTask now wfi taskID event).stateOf := by
  unfold memoryBackend.CompleteActivityTask
  cases mb.instances wfi.InstanceID with
  | none => exact Extends.refl mb
  | some st =>
    simp only
    split
    · exact Extends.refl mb
    · split
      · exact Extends.of_ok ((Extends.setInstance mb _ _).trans (Extends.queueWorkflowTask _ _ _))
      · exact Extends.setInstance mb _ _

theorem Extends.GetWorkflowTask (mb : memoryBackend) : Extends mb mb.GetWorkflowTask.2 := by
  unfold memoryBackend.GetWorkflowTask
  cases hw : mb.workflows with
  | nil => exact Extends.refl mb
  | cons t rest =>
    refine ⟨fun j h => h, fun j h => Or.inl ?_, fun u h => Or.inl ?_⟩
    · simp only [memoryBackend.pending, GoMap.delete] at h ⊢
      by_cases hj : j = t.WorkflowInstance.InstanceID
      · simp [hj] at h
      · simpa [hj] using h
    · simp only at h
      rw [hw]
      exact List.mem_cons_of_mem _ h

theorem Extends.timerFires (mb : memoryBackend) (now : Nat) (i : Nat) :
    Extends mb (mb.timerFires now i).stateOf := by
  unfold memoryBackend.timerFires
  cases mb.timers.get? i with
  | none => exact Extends.refl mb
  | some tm =>
    simp only
    split
    · exact Extends.after (Extends.queueWorkflowTask _ _ _) (Extends.of_same rfl rfl rfl)
    · exact Extends.refl mb

theorem Extends.CompleteWorkflowTask (mb : memoryBackend) (now : Nat) (t : Workflow)
    (newEvents : List Event) (msgs : List TaskMessage) :
    Extends mb (mb.CompleteWorkflowTask now t newEvents msgs).stateOf := by
  unfold memoryBackend.CompleteWorkflowTask
  simp only
  cases mb.lockedWorkflows t.WorkflowInstance.InstanceID with
  | none => exact Extends.refl mb
  | some b =>
    simp only
    cases mb.instances t.WorkflowInstance.InstanceID with
    | none => exact Extends.refl mb
    | some inst =>
      simp only
      refine Extends.after ?_ (Extends.setInstance mb t.WorkflowInstance.InstanceID
        { inst with
          History := inst.History ++ inst.NewEvents.filter (handled t),
          NewEvents := inst.NewEvents.filter (fun event => !handled t event) })
      generalize ({ mb with instances := (mb.instances.set t.WorkflowInstance.InstanceID
        { inst with
          History := inst.History ++ inst.NewEvents.filter (handled t),
          NewEvents := inst.NewEvents.filter (fun event => !handled t event) }) } :
        memoryBackend) = mb1
      have h1 := Extends.handleNewEvents t.WorkflowInstance newEvents mb1 false
      cases hne : Memory.handleNewEvents t.WorkflowInstance newEvents mb1 false with
      | panic msg mb2 => rw [hne] at h1; exact h1
      | blocked mb2 => rw [hne] at h1; exact h1
      | ok wc mb2 =>
        rw [hne] at h1
        simp only
        refine Extends.after ?_ h1
        have h2 := Extends.handleMessages now msgs mb2
        cases hms : Memory.handleMessages now msgs mb2 with
        | panic msg mb3 => rw [hms] at h2; exact h2
        | blocked mb3 => rw [hms] at h2; exact h2
        | ok r mb3 =>
          rw [hms] at h2
          simp only
          refine Extends.after ?_ h2
          refine Extends.after ?_ (Extends.of_same
            (b := { mb3 with lockedWorkflows :=
              mb3.lockedWorkflows.delete t.WorkflowInstance.InstanceID }) rfl rfl rfl)
          split
          · split
            · exact Extends.of_ok (Extends.queueWorkflowTask _ _ _)
            · exact Extends.refl _
          · exact Extends.modifyInstance _ _ _

theorem Extends.GetActivityTask (mb : memoryBackend) : Extends mb mb.GetActivityTask.2 := by
  unfold memoryBackend.GetActivityTask
  cases mb.activities with
  | nil => exact Extends.refl mb
  | cons t rest => exact Extends.of_same rfl rfl rfl

theorem Extends.step (mb : memoryBackend) (op : Op) : Extends mb (mb.step op) := by
  cases op with
  | CreateWorkflowInstance now m => exact Extends.CreateWorkflowInstance mb now m
  | SignalWorkflow now wfi event => exact Extends.SignalWorkflow mb now wfi event
  | GetWorkflowTask => exact Extends.GetWorkflowTask mb
  | CompleteWorkflowTask now t newEvents msgs =>
    exact Extends.CompleteWorkflowTask mb now t newEvents msgs
  | GetActivityTask => exact Extends.GetActivityTask mb
  | CompleteActivityTask now wfi taskID event =>
    exact Extends.CompleteActivityTask mb now wfi taskID event
  | timerFires now i => exact Extends.timerFires mb now i

theorem WellFormed.foldl (ops : List Op) :
    ∀ mb, WellFormed mb → WellFormed (ops.foldl memoryBackend.step mb) := by
  induction ops with
  | nil => intro mb h; exact h
  | cons op ops ih =>
    intro mb h
    exact ih _ (h.of_extends (Extends.step mb op))

theorem WellFormed.run (ops : List Op) : WellFormed (run ops) := by
  apply WellFormed.foldl
  constructor
  · intro id h
    simp [memoryBackend.pending, NewMemoryBackend] at h
  · intro t h
    simp [NewMemoryBackend] at h

theorem CreateWorkflowInstance_wellFormed (mb : memoryBackend) (hw : WellFormed mb) (now : Nat)
    (m : TaskMessage) (hnone : mb.instances m.WorkflowInstance.InstanceID = none) :
    (visible now m.HistoryEvent = false ∨ mb.workflows.length < capacity →
      ∃ mb2, mb.CreateWorkflowInstance now m = Outcome.ok none mb2 ∧
        mb2.instances m.WorkflowInstance.InstanceID = some
          { Status := workflowStatus.workflowStatusRunning, Instance := m.WorkflowInstance,
            History := [], NewEvents := [m.HistoryEvent], CreatedAt := now } ∧
        (visible now m.HistoryEvent = true →
          mb2.workflows = mb.workflows ++
            [{ WorkflowInstance := m.WorkflowInstance, History := [],
               NewEvents := [m.HistoryEvent] }] ∧
          mb2.workflows.filter
              (fun t => decide (t.WorkflowInstance.InstanceID = m.WorkflowInstance.InstanceID)) =
            [{ WorkflowInstance := m.WorkflowInstance, History := [],
               NewEvents := [m.HistoryEvent] }]) ∧
        (visible now m.HistoryEvent = false → mb2.workflows = mb.workflows)) ∧
    (visible now m.HistoryEvent = true → capacity ≤ mb.workflows.length →
      ∃ mb2, mb.CreateWorkflowInstance now m = Outcome.blocked mb2 ∧
        mb2.instances m.WorkflowInstance.InstanceID = some
          { Status := workflowStatus.workflowStatusRunning, Instance := m.WorkflowInstance,
            History := [], NewEvents := [m.HistoryEvent], CreatedAt := now } ∧
        mb2.workflows = mb.workflows) := by
  obtain ⟨w1, w2⟩ := hw
  have hp : (mb.pendingWorkflows m.WorkflowInstance.InstanceID).getD false = false := by
    cases hb : (mb.pendingWorkflows m.WorkflowInstance.InstanceID).getD false with
    | false => rfl
    | true =>
      have := w1 m.WorkflowInstance.InstanceID hb
      rw [hnone] at this
      cases this
  have hq : mb.workflows.filter
      (fun t => decide (t.WorkflowInstance.InstanceID = m.WorkflowInstance.InstanceID)) = [] := by
    rw [List.filter_eq_nil_iff]
    intro t ht hc
    have h1 := w2 t ht
    simp only [decide_eq_true_eq] at hc
    rw [hc, hnone] at h1
    cases h1
  constructor
  · intro hroom
    cases hv : visible now m.HistoryEvent with
    | true =>
      have hcap : mb.workflows.length < capacity := by
        rcases hroom with h | h
        · rw [hv] at h; cases h
        · exact h
      have hc : mb.CreateWorkflowInstance now m = Outcome.ok none
          { mb with
            instances := (mb.instances.set m.WorkflowInstance.InstanceID
              { Status := workflowStatus.workflowStatusRunning, Instance := m.WorkflowInstance,
                History := [], NewEvents := [m.HistoryEvent], CreatedAt := now }),
            pendingWorkflows := mb.pendingWorkflows.set m.WorkflowInstance.InstanceID true,
            workflows := mb.workflows ++
              [{ WorkflowInstance := m.WorkflowInstance, History := [],
                 NewEvents := [m.HistoryEvent] }] } := by
        simp [memoryBackend.CreateWorkflowInstance, hnone, memoryBackend.queueWorkflowTask,
          GoMap.set, hv, hp, hcap]
      refine ⟨_, hc, ?_, ?_, ?_⟩
      · simp [GoMap.set]
      · intro _
        refine ⟨rfl, ?_⟩
        simp only [List.filter_append, hq, List.nil_append, List.filter_cons, decide_True,
          if_true, List.filter_nil]
      · intro hc2; cases hc2
    | false =>
      have hc : mb.CreateWorkflowInstance now m = Outcome.ok none
          { mb with
            instances := (mb.instances.set m.WorkflowInstance.InstanceID
              { Status := workflowStatus.workflowStatusRunning, Instance := m.WorkflowInstance,
                History := [], NewEvents := [m.HistoryEvent], CreatedAt := now }) } := by
        simp [memoryBackend.CreateWorkflowInstance, hnone, memoryBackend.queueWorkflowTask,
          GoMap.set, hv]
      refine ⟨_, hc, ?_, ?_, ?_⟩
      · simp [GoMap.set]
      · intro hc2; cases hc2
      · intro _; rfl
  · intro hv hfull
    have hcap : ¬ mb.workflows.length < capacity := Nat.not_lt.mpr hfull
    have hc : mb.CreateWorkflowInstance now m = Outcome.blocked
        { mb with
          instances := (mb.instances.set m.WorkflowInstance.InstanceID
            { Status := workflowStatus.workflowStatusRunning, Instance := m.WorkflowInstance,
              History := [], NewEvents := [m.HistoryEvent], CreatedAt := now }),
          pendingWorkflows := mb.pendingWorkflows.set m.WorkflowInstance.InstanceID true } := by
      simp [memoryBackend.CreateWorkflowInstance, hnone, memoryBackend.queueWorkflowTask,
        GoMap.set, hv, hp, hcap]
    refine ⟨_, hc, ?_, rfl⟩
    simp [GoMap.set]

set_option maxRecDepth 1000000 in
/-- C19 (counterexample). `CreateWorkflowInstance` at time 1 with a start
event that becomes visible at time 10, on the new backend: it succeeds and
stores the instance with that event pending, and no workflow task is queued.
And after one hundred instances were created and no task was taken from the
queue, the queue holds one hundred tasks; `CreateWorkflowInstance` for a
further instance whose start event is visible does not return: it blocks in
the send, with the instance stored and the queue as it was. -/
theorem create_instance_queues_no_task :
    (NewMemoryBackend.CreateWorkflowInstance 1 exDeferredStart).retOf = some none ∧
    ((NewMemoryBackend.CreateWorkflowInstance 1 exDeferredStart).stateOf.instances "A").map
      (fun s => s.NewEvents) = some [exDeferredStart.HistoryEvent] ∧
    (NewMemoryBackend.CreateWorkflowInstance 1 exDeferredStart).stateOf.workflows = [] ∧
    (run exHundred).workflows.length = 100 ∧
    (run exHundred).instances "A" = none ∧
    ((run exHundred).CreateWorkflowInstance 1 exStart).isBlocked = true ∧
    ((run exHundred).CreateWorkflowInstance 1 exStart).retOf = none ∧
    (((run exHundred).CreateWorkflowInstance 1 exStart).stateOf.instances "A").isSome = true ∧
    ((run exHundred).CreateWorkflowInstance 1 exStart).stateOf.workflows.length = 100 := by
  decide

/-- C19 (amended). Every backend reached from `NewMemoryBackend` by backend
operations is well-formed. On a well-formed backend, for a message whose
instance id no instance has yet: if the start event is not yet visible at the
time of the call, or the queue holds fewer than 100 workflow tasks,
`CreateWorkflowInstance` succeeds and the backend then holds that instance
with an empty history and the start event as its only pending event; if the
start event is visible, one workflow task for the instance is appended to the
queue and it is the only queued task of that instance, and if it is not yet
visible the queue is unchanged. If the start event is visible and the queue
holds 100 tasks, the call does not return: it blocks in the send, with the
instance stored and the queue unchanged. On every backend, if an instance with
that id exists, the call returns an error and the backend is unchanged. -/
theorem create_instance_on_reachable (mb : memoryBackend) (now : Nat) (m : TaskMessage) :
    (∀ ops, WellFormed (run ops)) ∧
    (WellFormed mb → mb.instances m.WorkflowInstance.InstanceID = none →
      (visible now m.HistoryEvent = false ∨ mb.workflows.length < capacity →
        ∃ mb2, mb.CreateWorkflowInstance now m = Outcome.ok none mb2 ∧
          mb2.instances m.WorkflowInstance.InstanceID = some
            { Status := workflowStatus.workflowStatusRunning, Instance := m.WorkflowInstance,
              History := [], NewEvents := [m.HistoryEvent], CreatedAt := now } ∧
          (visible now m.HistoryEvent = true →
            mb2.workflows = mb.workflows ++
              [{ WorkflowInstance := m.WorkflowInstance, History := [],
                 NewEvents := [m.HistoryEvent] }] ∧
            mb2.workflows.filter
                (fun t => decide
                  (t.WorkflowInstance.InstanceID = m.WorkflowInstance.InstanceID)) =
              [{ WorkflowInstance := m.WorkflowInstance, History := [],
                 NewEvents := [m.HistoryEvent] }]) ∧
          (visible now m.HistoryEvent = false → mb2.workflows = mb.workflows)) ∧
      (visible now m.HistoryEvent = true → capacity ≤ mb.workflows.length →
        ∃ mb2, mb.CreateWorkflowInstance now m = Outcome.blocked mb2 ∧
          mb2.instances m.WorkflowInstance.InstanceID = some
            { Status := workflowStatus.workflowStatusRunning, Instance := m.WorkflowInstance,
              History := [], NewEvents := [m.HistoryEvent], CreatedAt := now } ∧
          mb2.workflows = mb.workflows)) ∧
    ((mb.instances m.WorkflowInstance.InstanceID).isSome = true →
      mb.CreateWorkflowInstance now m =
        Outcome.ok (some "workflow instance already exists") mb) := by
  refine ⟨WellFormed.run, ?_, ?_⟩
  · intro hw hnone
    exact CreateWorkflowInstance_wellFormed mb hw now m hnone
  · intro hsome
    cases hst : mb.instances m.WorkflowInstance.InstanceID with
    | none => rw [hst] at hsome; cases hsome
    | some st => simp [memoryBackend.CreateWorkflowInstance, hst]

/-- Witness for the amended C19: creating `"A"` on the new backend, and
creating it again after it was created and its task leased. -/
theorem create_instance_on_reachable_witness :
    (∃ mb2, (run []).CreateWorkflowInstance 1 exStart = Outcome.ok none mb2 ∧
        mb2.instances exStart.WorkflowInstance.InstanceID = some
          { Status := workflowStatus.workflowStatusRunning, Instance := exStart.WorkflowInstance,
            History := [], NewEvents := [exStart.HistoryEvent], CreatedAt := 1 } ∧
        (visible 1 exStart.HistoryEvent = true →
          mb2.workflows = (run []).workflows ++
            [{ WorkflowInstance := exStart.WorkflowInstance, History := [],
               NewEvents := [exStart.HistoryEvent] }] ∧
          mb2.workflows.filter
              (fun t => decide
                (t.WorkflowInstance.InstanceID = exStart.WorkflowInstance.InstanceID)) =
            [{ WorkflowInstance := exStart.WorkflowInstance, History := [],
               NewEvents := [exStart.HistoryEvent] }]) ∧
        (visible 1 exStart.HistoryEvent = false → mb2.workflows = (run []).workflows)) ∧
    (run exLeased).CreateWorkflowInstance 5 exStart =
      Outcome.ok (some "workflow instance already exists") (run exLeased) :=
  ⟨((create_instance_on_reachable (run []) 1 exStart).2.1
      ((create_instance_on_reachable (run []) 1 exStart).1 []) rfl).1 (Or.inr (by decide)),
   (create_instance_on_reachable (run exLeased) 5 exStart).2.2 (by decide)⟩

end Memory

/-! ## Properties of the sqlite backend -/

namespace Sqlite

/-- C20 (evaluation at the failing input). The root `"R"` has the uncompleted
children `"C1"` and `"C2"`. `CancelWorkflowInstance "R"` commits with a
cancellation event for `"R"` and for the child the query returns first, and
none for the other child, whichever of the two rows comes first. -/
theorem cancel_misses_sibling :
    (CancelWorkflowInstance 4 exTree 7 "R").map (fun db => db.pending_events) =
      some [NewWorkflowCancellationEvent 7 "R", NewWorkflowCancellationEvent 7 "C1"] ∧
    (CancelWorkflowInstance 4 exTree 7 "R").map (fun db => cancellationsOf db "C2") = some [] ∧
    (CancelWorkflowInstance 4 exTreeSwapped 7 "R").map (fun db => db.pending_events) =
      some [NewWorkflowCancellationEvent 7 "R", NewWorkflowCancellationEvent 7 "C2"] ∧
    (CancelWorkflowInstance 4 exTreeSwapped 7 "R").map (fun db => cancellationsOf db "C1") =
      some [] := by
  decide

end Sqlite

/-! ## Properties of `CompleteActivityTask` of the in-memory backend -/

namespace Memory

open Workflowstate (GoMap)

theorem queueWorkflowTask_eq {mb : memoryBackend} {now : Nat} {wfi : WorkflowInstance}
    {inst : workflowState} (hi : mb.instances wfi.InstanceID = some inst) :
    mb.queueWorkflowTask now wfi =
      if inst.NewEvents.filter (visible now) = [] then Outcome.ok () mb
      else if mb.pending wfi.InstanceID = true then Outcome.ok () mb
      else if mb.workflows.length < capacity then
        Outcome.ok ()
          { mb with
            pendingWorkflows := mb.pendingWorkflows.set wfi.InstanceID true,
            workflows := mb.workflows ++
              [{ WorkflowInstance := wfi, History := inst.History,
                 NewEvents := inst.NewEvents.filter (visible now) }] }
      else
        Outcome.blocked
          { mb with pendingWorkflows := mb.pendingWorkflows.set wfi.InstanceID true } := by
  simp only [memoryBackend.queueWorkflowTask, memoryBackend.pending, hi, List.length_eq_zero]

theorem CompleteActivityTask_unlocked {mb : memoryBackend} (now : Nat) {wfi : WorkflowInstance}
    (taskID : Nat) (event : Event) {inst : workflowState}
    (hi : mb.instances wfi.InstanceID = some inst)
    (hs : inst.Status ≠ workflowStatus.workflowStatusCompleted)
    (hl : mb.lockedWorkflows wfi.InstanceID = none) :
    mb.CompleteActivityTask now wfi taskID event =
      if (inst.NewEvents ++ [event]).filter (visible now) = [] then
        Outcome.ok none
          { mb with instances := (mb.instances.set wfi.InstanceID
              { inst with NewEvents := inst.NewEvents ++ [event] }) }
      else if mb.pending wfi.InstanceID = true then
        Outcome.ok none
          { mb with instances := (mb.instances.set wfi.InstanceID
              { inst with NewEvents := inst.NewEvents ++ [event] }) }
      else if mb.workflows.length < capacity then
        Outcome.ok none
          { mb with
            instances := (mb.instances.set wfi.InstanceID
              { inst with NewEvents := inst.NewEvents ++ [event] }),
            pendingWorkflows := mb.pendingWorkflows.set wfi.InstanceID true,
            workflows := mb.workflows ++
              [{ WorkflowInstance := wfi, History := inst.History,
                 NewEvents := (inst.NewEvents ++ [event]).filter (visible now) }] }
      else
        Outcome.blocked
          { mb with
            instances := (mb.instances.set wfi.InstanceID
              { inst with NewEvents := inst.NewEvents ++ [event] }),
            pendingWorkflows := mb.pendingWorkflows.set wfi.InstanceID true } := by
  have hi1 : ({ mb with instances := (mb.instances.set wfi.InstanceID
      { inst with NewEvents := inst.NewEvents ++ [event] }) } : memoryBackend).instances
      wfi.InstanceID = some { inst with NewEvents := inst.NewEvents ++ [event] } := by
    simp [GoMap.set]
  simp only [memoryBackend.CompleteActivityTask, hi, hs, if_false, hl]
  rw [queueWorkflowTask_eq hi1]
  simp only [memoryBackend.pending]
  by_cases h1 : (inst.NewEvents ++ [event]).filter (visible now) = []
  · simp only [if_pos h1]
  · by_cases h2 : (mb.pendingWorkflows wfi.InstanceID).getD false = true
    · simp only [if_neg h1, if_pos h2]
    · by_cases h3 : mb.workflows.length < capacity
      · simp only [if_neg h1, if_neg h2, if_pos h3]
      · simp only [if_neg h1, if_neg h2, if_neg h3]

/-- C21. `CompleteActivityTask` returns an error for an unknown instance and
leaves the backend unchanged; for a completed instance it returns nil and
leaves the backend, so the pending events, unchanged. For an existing instance
that is not completed, the backend after the call holds the instance with the
result event appended at the end of its pending events, the earlier pending
events and the history kept. When the instance is locked the call returns nil
and leaves the task queue unchanged, so a task is queued only if the instance
is not locked. When it is not locked: if a task of the instance is marked
pending or no pending event is visible, the call returns nil and the queue is
unchanged; otherwise, with fewer than 100 tasks queued, it returns nil and a
workflow task for the instance is appended to the queue, and with 100 tasks
queued it does not return but blocks in the send, the queue unchanged. -/
theorem complete_activity_appends_event (mb : memoryBackend) (now : Nat)
    (wfi : WorkflowInstance) (taskID : Nat) (event : Event) :
    (mb.instances wfi.InstanceID = none →
      mb.CompleteActivityTask now wfi taskID event =
        Outcome.ok (some "workflow instance does not exist") mb) ∧
    (∀ inst, mb.instances wfi.InstanceID = some inst →
      inst.Status = workflowStatus.workflowStatusCompleted →
      mb.CompleteActivityTask now wfi taskID event = Outcome.ok none mb) ∧
    (∀ inst, mb.instances wfi.InstanceID = some inst →
      inst.Status ≠ workflowStatus.workflowStatusCompleted →
      (mb.CompleteActivityTask now wfi taskID event).stateOf.instances wfi.InstanceID =
        some { inst with NewEvents := inst.NewEvents ++ [event] } ∧
      (mb.lockedWorkflows wfi.InstanceID ≠ none →
        ∃ mb2, mb.CompleteActivityTask now wfi taskID event = Outcome.ok none mb2 ∧
          mb2.workflows = mb.workflows) ∧
      (mb.lockedWorkflows wfi.InstanceID = none →
        (mb.pending wfi.InstanceID = true ∨
            (inst.NewEvents ++ [event]).filter (visible now) = [] →
          ∃ mb2, mb.CompleteActivityTask now wfi taskID event = Outcome.ok none mb2 ∧
            mb2.workflows = mb.workflows) ∧
        (mb.pending wfi.InstanceID = false →
          (inst.NewEvents ++ [event]).filter (visible now) ≠ [] →
          (mb.workflows.length < capacity →
            ∃ mb2, mb.CompleteActivityTask now wfi taskID event = Outcome.ok none mb2 ∧
              mb2.workflows = mb.workflows ++
                [{ WorkflowInstance := wfi, History := inst.History,
                   NewEvents := (inst.NewEvents ++ [event]).filter (visible now) }]) ∧
          (capacity ≤ mb.workflows.length →
            ∃ mb2, mb.CompleteActivityTask now wfi taskID event = Outcome.blocked mb2 ∧
              mb2.workflows = mb.workflows)))) := by
  refine ⟨?_, ?_, ?_⟩
  · intro hnone
    simp [memoryBackend.CompleteActivityTask, hnone]
  · intro inst hi hs
    simp [memoryBackend.CompleteActivityTask, hi, hs]
  · intro inst hi hs
    cases hl : mb.lockedWorkflows wfi.InstanceID with
    | some b =>
      have hc : mb.CompleteActivityTask now wfi taskID event = Outcome.ok none
          { mb with instances := (mb.instances.set wfi.InstanceID
              { inst with NewEvents := inst.NewEvents ++ [event] }) } := by
        simp only [memoryBackend.CompleteActivityTask, hi, hs, if_false, hl]
      refine ⟨?_, fun _ => ⟨_, hc, rfl⟩, fun hc2 => by cases hc2⟩
      rw [hc]
      simp [Outcome.stateOf, GoMap.set]
    | none =>
      have hc := CompleteActivityTask_unlocked now taskID event hi hs hl
      refine ⟨?_, fun hc2 => absurd rfl hc2, fun _ => ⟨?_, ?_⟩⟩
      · rw [hc]
        split
        · simp [Outcome.stateOf, GoMap.set]
        · split
          · simp [Outcome.stateOf, GoMap.set]
          · split <;> simp [Outcome.stateOf, GoMap.set]
      · intro hor
        by_cases hf : (inst.NewEvents ++ [event]).filter (visible now) = []
        · rw [if_pos hf] at hc
          exact ⟨_, hc, rfl⟩
        · have hp : mb.pending wfi.InstanceID = true := by
            rcases hor with h | h
            · exact h
            · exact absurd h hf
          rw [if_neg hf, if_pos hp] at hc
          exact ⟨_, hc, rfl⟩
      · intro hp hf
        have hp2 : ¬ mb.pending wfi.InstanceID = true := by rw [hp]; simp
        rw [if_neg hf, if_neg hp2] at hc
        constructor
        · intro hcap
          rw [if_pos hcap] at hc
          exact ⟨_, hc, rfl⟩
        · intro hfull
          rw [if_neg (Nat.not_lt.mpr hfull)] at hc
          exact ⟨_, hc, rfl⟩

/-- Witness for C21: an activity result for an unknown instance on the new
backend; for the locked instance `"A"` of `run exLeased`; and for `"A"` not
locked, after its first task was completed, with room in the queue. -/
theorem complete_activity_appends_event_witness :
    NewMemoryBackend.CompleteActivityTask 5 exA 0 (exEvent "e7" EventType.ActivityCompleted) =
      Outcome.ok (some "workflow instance does not exist") NewMemoryBackend ∧
    ((run exLeased).CompleteActivityTask 5 exA 0
        (exEvent "e7" EventType.ActivityCompleted)).stateOf.instances exA.InstanceID =
      some { exLeasedInstance with
        NewEvents := exLeasedInstance.NewEvents ++
          [exEvent "e7" EventType.ActivityCompleted] } ∧
    (∃ mb2, (run exLeased).CompleteActivityTask 5 exA 0
          (exEvent "e7" EventType.ActivityCompleted) = Outcome.ok none mb2 ∧
        mb2.workflows = (run exLeased).workflows) ∧
    (∃ mb2, (run exReleased).CompleteActivityTask 5 exA 0
          (exEvent "e7" EventType.ActivityCompleted) = Outcome.ok none mb2 ∧
        mb2.workflows = (run exReleased).workflows ++
          [{ WorkflowInstance := exA, History := exReleasedInstance.History,
             NewEvents := (exReleasedInstance.NewEvents ++
               [exEvent "e7" EventType.ActivityCompleted]).filter (visible 5) }]) :=
  ⟨(complete_activity_appends_event NewMemoryBackend 5 exA 0
      (exEvent "e7" EventType.ActivityCompleted)).1 rfl,
   ((complete_activity_appends_event (run exLeased) 5 exA 0
      (exEvent "e7" EventType.ActivityCompleted)).2.2 exLeasedInstance
        (by decide) (by decide)).1,
   ((complete_activity_appends_event (run exLeased) 5 exA 0
      (exEvent "e7" EventType.ActivityCompleted)).2.2 exLeasedInstance
        (by decide) (by decide)).2.1 (by decide),
   ((((complete_activity_appends_event (run exReleased) 5 exA 0
      (exEvent "e7" EventType.ActivityCompleted)).2.2 exReleasedInstance
        (by decide) (by decide)).2.2 (by decide)).2 (by decide) (by decide)).1 (by decide)⟩

end Memory

/-! ## Properties of sequences of channel operations -/

namespace Sync

variable {T : Type}

/-- C26 (evaluation at the failing input). On a buffered channel of size 1
holding 10, `Send 20` parks and registers its sender callback. A receive takes
10; the resumed `Send` finds `sentValue` false, succeeds in `trySend`, which
puts 20 into the buffer, and returns, while its sender callback is still
registered. The next receive takes 20 from the buffer and the one after it
obtains 20 again from the callback. -/
theorem resumed_send_delivers_twice :
    exFull.Send 1 20 = Outcome.ok SendStep.yielded exParked ∧
    exParked.senders = [(1, 20)] ∧
    (exParked.Receive 2).1 = RecvStep.returned (Iface.val 10) true ∧
    (exParked.Receive 2).2.SendResume 1 20 = Outcome.ok SendStep.returned exResumed ∧
    exResumed.c = [20] ∧ exResumed.senders = [(1, 20)] ∧
    (exResumed.Receive 3).1 = RecvStep.returned (Iface.val 20) true ∧
    ((exResumed.Receive 3).2.Receive 4).1 = RecvStep.returned (Iface.val 20) true := by
  decide

theorem trySend_invariant (c : channel T) (v : T) (h : c.Invariant) :
    (c.trySend v).stateOf.Invariant ∧
    (c.trySend v).stateOf.receivers.length ≤ c.receivers.length ∧
    (∀ c1, c.trySend v = Outcome.ok false c1 → c1 = c ∧ c.receivers = []) := by
  obtain ⟨b, rcv, snd, cl, sz, calls⟩ := c
  obtain ⟨h1, h2⟩ := h
  simp only at h1 h2
  unfold channel.trySend
  cases cl with
  | true => simp [Outcome.stateOf, channel.Invariant, h1]; exact h2
  | false =>
    cases rcv with
    | cons r rs =>
      obtain ⟨hb, hs⟩ := h2 (by simp)
      subst hb hs
      simp [Outcome.stateOf, channel.Invariant]
    | nil =>
      by_cases hcap : b.length < sz
      · simp [Outcome.stateOf, channel.Invariant, channel.hasCapacity, hcap]
        omega
      · simp [Outcome.stateOf, channel.Invariant, channel.hasCapacity, hcap, h1]

theorem tryReceive_invariant (c : channel T) (h : c.Invariant) :
    c.tryReceive.2.Invariant ∧
    (c.tryReceive.1 = none → c.tryReceive.2 = c ∧ c.c = [] ∧ c.senders = []) := by
  obtain ⟨b, rcv, snd, cl, sz, calls⟩ := c
  obtain ⟨h1, h2⟩ := h
  simp only at h1 h2
  unfold channel.tryReceive
  cases b with
  | cons v rest =>
    simp only [channel.Invariant, List.length_cons] at h1 ⊢
    refine ⟨⟨by omega, ?_⟩, by simp⟩
    intro hr
    have := (h2 hr).1
    cases this
  | nil =>
    cases cl with
    | true => simp [channel.Invariant]; exact fun hr => (h2 hr).2
    | false =>
      cases snd with
      | nil => simp [channel.Invariant]
      | cons s ss =>
        simp only [channel.Invariant, Bool.false_eq_true, if_false, List.length_nil,
          Nat.zero_le, true_and]
        refine ⟨?_, by simp⟩
        intro hr
        have := (h2 hr).2
        cases this

theorem Invariant.of_fields {c d : channel T} (h : c.Invariant) (h1 : d.c = c.c)
    (h2 : d.size = c.size) (h3 : d.receivers = c.receivers) (h4 : d.senders = c.senders) :
    d.Invariant := by
  unfold channel.Invariant at *
  rw [h1, h2, h3, h4]
  exact h

theorem apply_invariant [DecidableEq T] (c : channel T) (op : ChanOp T) (h : c.Invariant) :
    (c.apply op).Invariant := by
  have hs := fun v => trySend_invariant c v h
  have hr := tryReceive_invariant c h
  cases op with
  | Send cb v =>
    simp only [channel.apply, channel.Send]
    cases hres : c.trySend v with
    | panic msg c1 => have := (hs v).1; rw [hres] at this; exact this
    | ok b c1 =>
      cases b with
      | true => have := (hs v).1; rw [hres] at this; exact this
      | false =>
        obtain ⟨he, hrc⟩ := (hs v).2.2 c1 hres
        subst he
        simp only [Outcome.stateOf, channel.Invariant]
        exact ⟨h.1, fun hne => absurd hrc hne⟩
  | SendResume cb v =>
    simp only [channel.apply, channel.SendResume]
    split
    · exact h
    · cases hres : c.trySend v with
      | panic msg c1 => have := (hs v).1; rw [hres] at this; exact this
      | ok b c1 =>
        have := (hs v).1
        rw [hres] at this
        cases b <;> exact this
  | SendNonblocking v => exact (hs v).1
  | Receive cb =>
    simp only [channel.apply, channel.Receive]
    cases hres : c.tryReceive with
    | mk r c1 =>
      rw [hres] at hr
      cases r with
      | some v => exact hr.1
      | none =>
        obtain ⟨he, hb, hsn⟩ := hr.2 rfl
        simp only at he
        subst he
        simp only [channel.Invariant]
        exact ⟨h.1, fun _ => ⟨hb, hsn⟩⟩
  | ReceiveResume cb =>
    simp only [channel.apply, channel.ReceiveResume]
    cases c.receivedValue cb with
    | some v => exact h
    | none =>
      simp only
      cases hres : c.tryReceive with
      | mk r c1 =>
        rw [hres] at hr
        cases r <;> exact hr.1
  | ReceiveNonblocking => exact hr.1
  | ReceiveNonBlocking cb =>
    simp only [channel.apply, channel.ReceiveNonBlocking]
    cases hres : c.tryReceive with
    | mk r c1 =>
      rw [hres] at hr
      cases r with
      | some v => exact Invariant.of_fields hr.1 rfl rfl rfl rfl
      | none =>
        obtain ⟨he, hb, hsn⟩ := hr.2 rfl
        simp only at he
        subst he
        simp only [channel.AddReceiveCallback, channel.Invariant]
        exact ⟨h.1, fun _ => ⟨hb, hsn⟩⟩
  | Close =>
    simp only [channel.apply, channel.Close]
    split
    · exact Invariant.of_fields h rfl rfl rfl rfl
    · simp only [Outcome.stateOf]
      rw [closeLoop_eq _ _ rfl]
      exact ⟨h.1, fun hne => absurd rfl hne⟩

theorem applyAll_invariant [DecidableEq T] (ops : List (ChanOp T)) :
    ∀ c : channel T, c.Invariant → (c.applyAll ops).Invariant := by
  induction ops with
  | nil => intro c h; exact h
  | cons op ops ih =>
    intro c h
    exact ih _ (apply_invariant c op h)

/-- C27. After any sequence of `Send`, `SendNonblocking`, `Receive`,
`ReceiveNonblocking` and `ReceiveNonBlocking(cb)` steps, of continuations of a
parked `Send` or `Receive`, and of `Close`, applied to a new buffered or
unbuffered channel, the buffer holds at most `size` values, and if a receiver
is parked the buffer is empty and no sender is parked. -/
theorem channel_state_invariant [DecidableEq T] (size : Nat) (ops : List (ChanOp T)) :
    (((NewBufferedChannel T size).applyAll ops).c.length ≤
        ((NewBufferedChannel T size).applyAll ops).size ∧
      (((NewBufferedChannel T size).applyAll ops).receivers ≠ [] →
        ((NewBufferedChannel T size).applyAll ops).c = [] ∧
        ((NewBufferedChannel T size).applyAll ops).senders = [])) ∧
    (((NewChannel T).applyAll ops).c.length ≤ ((NewChannel T).applyAll ops).size ∧
      (((NewChannel T).applyAll ops).receivers ≠ [] →
        ((NewChannel T).applyAll ops).c = [] ∧ ((NewChannel T).applyAll ops).senders = [])) :=
  ⟨applyAll_invariant ops _ ⟨Nat.zero_le _, fun h => absurd rfl h⟩,
   applyAll_invariant ops _ ⟨Nat.zero_le _, fun h => absurd rfl h⟩⟩

end Sync

/-! ## Properties of signals delivered to an existing channel -/

namespace Workflowstate

open Sync

variable {P T : Type}

/-- C28 (counterexample). The channel for `"go"` was created by
`GetSignalChannel` and then closed by the workflow; `ReceiveSignal` for
`"go"` panics with "channel closed" and appends nothing. -/
theorem signal_on_closed_channel_panics :
    (exCreated.signalChannels "go").map (fun c => (c.closed, c.size)) = some (false, 10000) ∧
    (exCreatedClosed.signalChannels "go").map (fun c => c.closed) = some true ∧
    (ReceiveSignal some exCreatedClosed "go" "X").panicOf = some "channel closed" ∧
    ((ReceiveSignal some exCreatedClosed "go" "X").stateOf.signalChannels "go").map
      (fun c => c.c) = some [] := by
  decide

theorem ReceiveSignal_on_channel (decode : P → Option T) (wf : WfState P T) (name : String)
    (arg : P) (t : T) (c : channel T) (hch : wf.signalChannels name = some c)
    (hd : decode arg = some t) :
    (c.closed = true → ∃ wf1, ReceiveSignal decode wf name arg =
      Outcome.panic "channel closed" wf1) ∧
    (c.closed = false → ∀ r rs, c.receivers = r :: rs →
      ReceiveSignal decode wf name arg = Outcome.ok ()
        { wf with signalChannels := (wf.signalChannels.set name
            { c with receivers := rs,
                     calls := c.calls ++ [Call.receiver r (Iface.val t)] }) }) ∧
    (c.closed = false → c.receivers = [] → c.c.length < c.size →
      ReceiveSignal decode wf name arg = Outcome.ok ()
        { wf with signalChannels := wf.signalChannels.set name { c with c := c.c ++ [t] } }) ∧
    (c.closed = false → c.receivers = [] → c.size ≤ c.c.length →
      ReceiveSignal decode wf name arg = Outcome.ok ()
        { wf with signalChannels := wf.signalChannels.set name c }) := by
  refine ⟨?_, ?_, ?_, ?_⟩
  · intro hc
    exact ⟨{ wf with signalChannels := wf.signalChannels.set name c },
      by simp [ReceiveSignal, hch, signalChannel.receive, hd,
        channel.SendNonblocking, channel.trySend, hc]⟩
  · intro hc r rs hr
    simp [ReceiveSignal, hch, signalChannel.receive, hd, channel.SendNonblocking,
      channel.trySend, hc, hr]
  · intro hc hr hcap
    simp [ReceiveSignal, hch, signalChannel.receive, hd, channel.SendNonblocking,
      channel.trySend, hc, hr, channel.hasCapacity, hcap]
  · intro hc hr hfull
    have hcap : ¬ c.c.length < c.size := by omega
    simp [ReceiveSignal, hch, signalChannel.receive, hd, channel.SendNonblocking,
      channel.trySend, hc, hr, channel.hasCapacity, hcap]

theorem ReceiveSignals_buffered (decode : P → Option T) (name : String) (args : List P) :
    ∀ (ts : List T) (wf : WfState P T) (c : channel T),
      wf.signalChannels name = some c → c.closed = false → c.receivers = [] →
      c.c.length + args.length ≤ c.size → args.map decode = ts.map some →
      ∃ wf1, ReceiveSignals decode name args wf = Outcome.ok () wf1 ∧
        wf1.signalChannels name = some { c with c := c.c ++ ts } ∧
        wf1.pendingSignals = wf.pendingSignals := by
  induction args with
  | nil =>
    intro ts wf c hch _ _ _ hd
    cases ts with
    | nil => exact ⟨wf, rfl, by simp [hch], rfl⟩
    | cons t ts => simp at hd
  | cons a as ih =>
    intro ts wf c hch hopen hr hn hd
    cases ts with
    | nil => simp at hd
    | cons t ts =>
      simp only [List.map_cons, List.cons.injEq] at hd
      simp only [List.length_cons] at hn
      have hstep := (ReceiveSignal_on_channel decode wf name a t c hch hd.1).2.2.1 hopen hr
        (by omega)
      obtain ⟨wf1, h1, h2, h3⟩ := ih ts
        { wf with signalChannels := wf.signalChannels.set name { c with c := c.c ++ [t] } }
        { c with c := c.c ++ [t] } (by simp [GoMap.set]) hopen hr
        (by simp only [List.length_append, List.length_singleton]; omega) hd.2
      refine ⟨wf1, ?_, ?_, h3⟩
      · rw [ReceiveSignals, hstep]
        exact h1
      · rw [h2]; simp

theorem set_same {α : Type} (m : GoMap α) (k : String) (x : α) (h : m k = some x) :
    m.set k x = m := by
  funext j
  simp only [GoMap.set]
  split
  · next hj => rw [hj, h]
  · rfl

/-- C28 (amended). For a name that has a signal channel `c` and a payload that
decodes: on the open channel `ReceiveSignal` returns, without yielding, after
handing the decoded payload to the earliest parked receiver, or else after
appending it at the end of the buffer when the buffer holds fewer than `size`
values (10000 for a channel created by `GetSignalChannel`), or else, the
buffer being full, with the workflow state and the channel unchanged; signals
delivered in turn to an open channel with no parked receiver and room for
them are buffered, and so received, in arrival order; on a channel that has
been closed `ReceiveSignal` panics. -/
theorem signal_to_existing_channel (decode : P → Option T) (wf : WfState P T)
    (name : String) (c : channel T) (hch : wf.signalChannels name = some c) :
    (∀ arg t, decode arg = some t → c.closed = false →
      (∀ r rs, c.receivers = r :: rs →
        ReceiveSignal decode wf name arg = Outcome.ok ()
          { wf with signalChannels := (wf.signalChannels.set name
              { c with receivers := rs,
                       calls := c.calls ++ [Call.receiver r (Iface.val t)] }) }) ∧
      (c.receivers = [] → c.c.length < c.size →
        ReceiveSignal decode wf name arg = Outcome.ok ()
          { wf with signalChannels := wf.signalChannels.set name { c with c := c.c ++ [t] } }) ∧
      (c.receivers = [] → c.size ≤ c.c.length →
        ReceiveSignal decode wf name arg = Outcome.ok () wf)) ∧
    (∀ args ts, c.closed = false → c.receivers = [] → c.c.length + args.length ≤ c.size →
      args.map decode = ts.map some →
      ∃ wf1, ReceiveSignals decode name args wf = Outcome.ok () wf1 ∧
        wf1.signalChannels name = some { c with c := c.c ++ ts } ∧
        (({ c with c := c.c ++ ts } : channel T).receiveN (c.c.length + ts.length)).1 =
          (c.c ++ ts).map (fun v => some (Iface.val v))) ∧
    (∀ arg t, decode arg = some t → c.closed = true →
      ∃ wf1, ReceiveSignal decode wf name arg = Outcome.panic "channel closed" wf1) := by
  refine ⟨?_, ?_, ?_⟩
  · intro arg t hd hopen
    have h := ReceiveSignal_on_channel decode wf name arg t c hch hd
    refine ⟨h.2.1 hopen, h.2.2.1 hopen, ?_⟩
    intro hr hfull
    rw [h.2.2.2 hopen hr hfull, set_same _ _ _ hch]
  · intro args ts hopen hr hn hd
    obtain ⟨wf1, h1, h2, _⟩ := ReceiveSignals_buffered decode name args ts wf c hch hopen hr hn hd
    refine ⟨wf1, h1, h2, ?_⟩
    rw [receiveN_buffer _ _ (by simp)]
    simp
  · intro arg t hd hclosed
    exact (ReceiveSignal_on_channel decode wf name arg t c hch hd).1 hclosed

/-- Witness for the amended C28: the signals `"X"` then `"Y"` delivered to the
channel created for `"go"`, and `"X"` delivered after the workflow closed it. -/
theorem signal_to_existing_channel_witness :
    (∃ wf1, ReceiveSignals some "go" ["X", "Y"] exCreated = Outcome.ok () wf1 ∧
        wf1.signalChannels "go" =
          some { NewBufferedChannel String 10000 with
            c := (NewBufferedChannel String 10000).c ++ ["X", "Y"] } ∧
        (({ NewBufferedChannel String 10000 with
            c := (NewBufferedChannel String 10000).c ++ ["X", "Y"] } :
            channel String).receiveN
          ((NewBufferedChannel String 10000).c.length + ["X", "Y"].length)).1 =
          ((NewBufferedChannel String 10000).c ++ ["X", "Y"]).map
            (fun v => some (Iface.val v))) ∧
    (∃ wf1, ReceiveSignal some exCreatedClosed "go" "X" =
      Outcome.panic "channel closed" wf1) :=
  ⟨(signal_to_existing_channel some exCreated "go" (NewBufferedChannel String 10000)
      (by decide)).2.1 ["X", "Y"] ["X", "Y"] rfl rfl (by decide) rfl,
   (signal_to_existing_channel some exCreatedClosed "go"
      { NewBufferedChannel String 10000 with closed := true } (by decide)).2.2 "X" "X" rfl rfl⟩

end Workflowstate

/-! ## Properties of `executeActivity` -/

namespace Workflow

open Sync

variable {T I : Type}

theorem receive_on_closed (c : channel Unit) (h : c.closed = true) :
    ∃ x c1, c.ReceiveNonblocking = (some x, c1) := by
  unfold channel.ReceiveNonblocking channel.tryReceive
  cases c.c with
  | nil => exact ⟨Iface.nil, c, by simp [h]⟩
  | cons v rest => exact ⟨_, _, rfl⟩

theorem receive_on_open_empty (c : channel Unit) (h : c.closed = false) (hb : c.c = [])
    (hs : c.senders = []) : c.ReceiveNonblocking = (none, c) := by
  simp [channel.ReceiveNonblocking, channel.tryReceive, h, hb, hs]

/-- C22. When the arguments cannot be converted to inputs, `executeActivity`
returns a future that is already set with a non-nil error, and the workflow
state and the context after the call are those before it: no command is
added, no future is tracked and the counter of schedule-event ids is not
advanced. -/
theorem serialization_failure_keeps_state [Inhabited T] [DecidableEq I]
    (newCommand : Nat → String → I → Command I) (ctx : Context) (wf : WfState T I)
    (name : String) (err : String) :
    executeActivity newCommand ctx wf name (Except.error err) =
      ({ hasValue := true, v := default,
         err := some (WfError.Wrap err "failed to convert activity input") }, wf, ctx) ∧
    (executeActivity newCommand ctx wf name (Except.error err)).1.Ready = true ∧
    (executeActivity newCommand ctx wf name (Except.error err)).1.err ≠ none ∧
    (executeActivity newCommand ctx wf name (Except.error err)).2.1.commands = wf.commands ∧
    (executeActivity newCommand ctx wf name (Except.error err)).2.1.futures = wf.futures ∧
    (executeActivity newCommand ctx wf name (Except.error err)).2.1.scheduleEventID =
      wf.scheduleEventID := by
  refine ⟨rfl, rfl, ?_, rfl, rfl, rfl⟩
  simp [executeActivity, NewFuture, futureImpl.Set, Outcome.stateOf]

/-- C23. For a call of `executeActivity` whose arguments convert, with `cmd`
the new command: when the Done channel of the context is closed, `cmd` is not
Committed and is not already among the commands, the commands afterwards are
those before the call, so `cmd` is not among them, no future is tracked under
its schedule-event id, and the returned future is set with the Canceled error,
which `Get` returns; when the context is not canceled, `cmd` is the last of
the commands, and the returned future is unset and is the future tracked
under the schedule-event id. -/
theorem withdrawal_on_cancellation [Inhabited T] [DecidableEq I]
    (newCommand : Nat → String → I → Command I) (ctx : Context) (wf : WfState T I)
    (name : String) (inputs : I) :
    (∀ c, ctx.Done = some c → c.closed = true →
      (newCommand wf.scheduleEventID name inputs).State ≠ CommandState.CommandState_Committed →
      newCommand wf.scheduleEventID name inputs ∉ wf.commands →
      (executeActivity newCommand ctx wf name (Except.ok inputs)).2.1.commands = wf.commands ∧
      newCommand wf.scheduleEventID name inputs ∉
        (executeActivity newCommand ctx wf name (Except.ok inputs)).2.1.commands ∧
      (executeActivity newCommand ctx wf name (Except.ok inputs)).2.1.futures
        wf.scheduleEventID = none ∧
      (executeActivity newCommand ctx wf name (Except.ok inputs)).1 =
        { hasValue := true, v := default, err := some WfError.Canceled } ∧
      ∀ assign, ((executeActivity newCommand ctx wf name (Except.ok inputs)).1.Get assign).1 =
        GetStep.returned default (some WfError.Canceled)) ∧
    (ctx.notCanceled →
      (executeActivity newCommand ctx wf name (Except.ok inputs)).2.1.commands =
        wf.commands ++ [newCommand wf.scheduleEventID name inputs] ∧
      (executeActivity newCommand ctx wf name (Except.ok inputs)).1 = NewFuture T WfError ∧
      (executeActivity newCommand ctx wf name (Except.ok inputs)).1.Ready = false ∧
      (executeActivity newCommand ctx wf name (Except.ok inputs)).2.1.futures
        wf.scheduleEventID =
        some (executeActivity newCommand ctx wf name (Except.ok inputs)).1) := by
  constructor
  · intro c hd hclosed hstate hnew
    obtain ⟨x, c1, hrecv⟩ := receive_on_closed c hclosed
    have hex : executeActivity newCommand ctx wf name (Except.ok inputs) =
        ({ hasValue := true, v := default, err := some WfError.Canceled },
          { scheduleEventID := wf.scheduleEventID + 1,
            commands := (wf.commands ++ [newCommand wf.scheduleEventID name inputs]).erase
              (newCommand wf.scheduleEventID name inputs),
            futures := fun k => if k = wf.scheduleEventID then none
              else if k = wf.scheduleEventID then some (NewFuture T WfError)
              else wf.futures k },
          { Done := some c1 }) := by
      simp [executeActivity, hd, hrecv, hstate, WfState.GetNextScheduleEventID,
        WfState.AddCommand, WfState.TrackFuture, WfState.RemoveFuture, WfState.RemoveCommand,
        NewFuture, futureImpl.Set, Outcome.stateOf]
    have herase : (wf.commands ++ [newCommand wf.scheduleEventID name inputs]).erase
        (newCommand wf.scheduleEventID name inputs) = wf.commands := by
      rw [List.erase_append_right _ hnew]
      simp
    rw [hex]
    refine ⟨herase, ?_, by simp, rfl, ?_⟩
    · simp only [herase]
      exact hnew
    · intro assign
      simp [futureImpl.Get]
  · intro hnc
    have hex : executeActivity newCommand ctx wf name (Except.ok inputs) =
        (NewFuture T WfError,
          { scheduleEventID := wf.scheduleEventID + 1,
            commands := wf.commands ++ [newCommand wf.scheduleEventID name inputs],
            futures := fun k => if k = wf.scheduleEventID then some (NewFuture T WfError)
              else wf.futures k },
          ctx) := by
      rcases hnc with hn | ⟨c, hd, hopen, hb, hs⟩
      · simp [executeActivity, hn, WfState.GetNextScheduleEventID, WfState.AddCommand,
          WfState.TrackFuture]
      · have hrecv := receive_on_open_empty c hopen hb hs
        obtain ⟨d⟩ := ctx
        simp only at hd
        subst hd
        simp [executeActivity, hrecv, WfState.GetNextScheduleEventID, WfState.AddCommand,
          WfState.TrackFuture]
    rw [hex]
    exact ⟨rfl, rfl, rfl, by simp⟩

/-- Witness for C23: scheduling `"Activity1"` on a state with one earlier
command, with a canceled context and with an open one. -/
theorem withdrawal_on_cancellation_witness :
    ((executeActivity exNewCommand exCanceled exWfState "Activity1"
        (Except.ok [35, 12])).2.1.commands = exWfState.commands ∧
      (executeActivity exNewCommand exCanceled exWfState "Activity1"
        (Except.ok [35, 12])).1 =
        ({ hasValue := true, v := default, err := some WfError.Canceled } :
          futureImpl Nat WfError)) ∧
    (executeActivity exNewCommand exOpen exWfState "Activity1"
        (Except.ok [35, 12])).2.1.commands =
      exWfState.commands ++ [exNewCommand exWfState.scheduleEventID "Activity1" [35, 12]] :=
  ⟨⟨((withdrawal_on_cancellation exNewCommand exCanceled exWfState "Activity1" [35, 12]).1
        (NewChannel Unit).Close.stateOf rfl rfl (by decide) (by decide)).1,
    ((withdrawal_on_cancellation exNewCommand exCanceled exWfState "Activity1" [35, 12]).1
        (NewChannel Unit).Close.stateOf rfl rfl (by decide) (by decide)).2.2.2.1⟩,
   ((withdrawal_on_cancellation exNewCommand exOpen exWfState "Activity1" [35, 12]).2
      (Or.inr ⟨NewChannel Unit, rfl, rfl, rfl, rfl⟩)).1⟩

end Workflow

/-! ## Properties of the timer sample -/

namespace TimerSample

open Sync Workflow

variable {I : Type}

/-- The first pass of the sample from the state at its start, with an open
context. With timer commands that start Pending, the pass finishes with
`"result"` and leaves the activity command as the only command: the timer
command has been withdrawn. With timer commands that start Committed,
`cancel()` leaves the timer future unset and the pass reaches the
`cs.Yield()` of `Select` with both commands in place. -/
theorem first_pass_of_sample :
    (Workflow1 exNewCommand exNewTimerCommand (fun v => (v, none)) 0 7 "Activity1"
        (Except.ok [35, 12]) exOpen exFresh "Hello world").1 =
      WorkflowStep.finished "result" none ∧
    (Workflow1 exNewCommand exNewTimerCommand (fun v => (v, none)) 0 7 "Activity1"
        (Except.ok [35, 12]) exOpen exFresh "Hello world").2.commands =
      [exNewCommand 0 "Activity1" [35, 12]] ∧
    (Workflow1 exNewCommand exCommittedTimerCommand (fun v => (v, none)) 0 7 "Activity1"
        (Except.ok [35, 12]) exOpen exFresh "Hello world").1 = WorkflowStep.yielded ∧
    (Workflow1 exNewCommand exCommittedTimerCommand (fun v => (v, none)) 0 7 "Activity1"
        (Except.ok [35, 12]) exOpen exFresh "Hello world").2.commands =
      [exNewCommand 0 "Activity1" [35, 12], exCommittedTimerCommand 1 2] := by
  decide

/-- C24. For every input message, every context and workflow state, and
every result of converting the arguments: when the constructor of timer
commands yields commands that are not committed, `Workflow1` finishes in its
first pass with the result `"result"` and a nil error. `cancel()` has withdrawn
the timer command and set the timer future with `Canceled`, so `Select`
handles the timer case, whatever the state of the activity. And from `Select`
on, for every state of the two futures: when the timer future is ready,
`Select` handles the timer case and the pass finishes with `"result"` and a
nil error; when it is not ready and the future of `Activity1(35, 12)` is set
without an error and its value converts to the result variable, `Select`
handles the activity case and the pass finishes with `"result"` and a nil
error. A pass does not finish otherwise: were the timer command committed,
`cancel()` would leave the timer future unset, and with the activity future
unset too the pass reaches the `cs.Yield()` of `Select`. -/
theorem timer_sample_result [DecidableEq I] (newCommand : Nat → String → I → Command I)
    (newTimerCommand : Nat → Nat → Command I) (assign : Int → Int × Option WfError)
    (now cb : Nat) (name : String) (inputs : Except String I) (ctx : Context)
    (wf : WfState Int I) (msg : String) (t a1 : futureImpl Int WfError) :
    ((∀ id at_, (newTimerCommand id at_).State ≠ CommandState.CommandState_Committed) →
      (Workflow1 newCommand newTimerCommand assign now cb name inputs ctx wf msg).1 =
        WorkflowStep.finished "result" none) ∧
    (t.Ready = true →
      Select [selectorCase.futureCase t 0, selectorCase.futureCase a1 1] =
        { calls := [(0, 0)], step := SendStep.returned } ∧
      selectAndReturn assign t a1 = WorkflowStep.finished "result" none) ∧
    (t.Ready = false → a1.hasValue = true → a1.err = none → (assign a1.v).2 = none →
      Select [selectorCase.futureCase t 0, selectorCase.futureCase a1 1] =
        { calls := [(1, 1)], step := SendStep.returned } ∧
      selectAndReturn assign t a1 = WorkflowStep.finished "result" none) ∧
    ((∀ id at_, (newTimerCommand id at_).State = CommandState.CommandState_Committed) →
      (ExecuteActivity newCommand ctx wf name inputs).1.Ready = false →
      (Workflow1 newCommand newTimerCommand assign now cb name inputs ctx wf msg).1 =
        WorkflowStep.yielded) := by
  refine ⟨?_, ?_, ?_, ?_⟩
  · intro hpending
    have hst := hpending
      (ExecuteActivity newCommand ctx wf name inputs).2.1.scheduleEventID (now + 2)
    simp [Workflow1, WithCancel, ScheduleTimer, cancel, timerCanceled, hst,
      channel.ReceiveNonBlocking, channel.tryReceive, channel.AddReceiveCallback,
      channel.hasValue, NewChannel, channel.Close, channel.closeLoop,
      WfState.GetNextScheduleEventID, NewFuture, futureImpl.Set,
      selectAndReturn, Select, Select.scan, selectorCase.Ready, selectorCase.Handle,
      futureImpl.Ready, runHandlers, timerHandler, futureImpl.Get]
  · intro ht
    have ht2 : t.hasValue = true := ht
    constructor
    · simp [Select, Select.scan, selectorCase.Ready, selectorCase.Handle, futureImpl.Ready, ht2]
    · cases hte : t.err <;>
        simp [selectAndReturn, Select, Select.scan, selectorCase.Ready, selectorCase.Handle,
          futureImpl.Ready, ht2, runHandlers, timerHandler, futureImpl.Get, hte]
  · intro ht hset herr hassign
    have ht2 : t.hasValue = false := ht
    constructor
    · simp [Select, Select.scan, selectorCase.Ready, selectorCase.Handle, futureImpl.Ready, ht2,
        hset]
    · simp [selectAndReturn, Select, Select.scan, selectorCase.Ready, selectorCase.Handle,
        futureImpl.Ready, ht2, hset, runHandlers, activityHandler, futureImpl.Get, herr,
        hassign]
  · intro hcommitted hunset
    have hst := hcommitted
      (ExecuteActivity newCommand ctx wf name inputs).2.1.scheduleEventID (now + 2)
    have hunset2 : (ExecuteActivity newCommand ctx wf name inputs).1.hasValue = false := hunset
    simp [Workflow1, WithCancel, ScheduleTimer, cancel, timerCanceled, hst,
      channel.ReceiveNonBlocking, channel.tryReceive, channel.AddReceiveCallback,
      channel.hasValue, NewChannel, channel.Close, channel.closeLoop,
      WfState.GetNextScheduleEventID, NewFuture,
      selectAndReturn, Select, Select.scan, selectorCase.Ready, selectorCase.Handle,
      futureImpl.Ready, hunset2]

/-- Witness for C24: the run of the sample from the state at its start, with
an open context; and the statements from `Select` on with the timer future
canceled, and with the timer future unset and the activity completed with
47. -/
theorem timer_sample_result_witness :
    (Workflow1 exNewCommand exNewTimerCommand (fun v => (v, none)) 0 7 "Activity1"
        (Except.ok [35, 12]) exOpen exFresh "Hello world").1 =
      WorkflowStep.finished "result" none ∧
    (Select [selectorCase.futureCase exTimerCanceled 0,
        selectorCase.futureCase (NewFuture Int WfError) 1] =
        { calls := [(0, 0)], step := SendStep.returned } ∧
      selectAndReturn (fun v => (v, none)) exTimerCanceled (NewFuture Int WfError) =
        WorkflowStep.finished "result" none) ∧
    (Select [selectorCase.futureCase (NewFuture Int WfError) 0,
        selectorCase.futureCase exActivityDone 1] =
        { calls := [(1, 1)], step := SendStep.returned } ∧
      selectAndReturn (fun v => (v, none)) (NewFuture Int WfError) exActivityDone =
        WorkflowStep.finished "result" none) :=
  ⟨(timer_sample_result exNewCommand exNewTimerCommand (fun v => (v, none)) 0 7 "Activity1"
      (Except.ok [35, 12]) exOpen exFresh "Hello world" exTimerCanceled exActivityDone).1
      (by intro id at_; simp [exNewTimerCommand]),
   (timer_sample_result exNewCommand exNewTimerCommand (fun v => (v, none)) 0 7 "Activity1"
      (Except.ok [35, 12]) exOpen exFresh "Hello world" exTimerCanceled
      (NewFuture Int WfError)).2.1 rfl,
   (timer_sample_result exNewCommand exNewTimerCommand (fun v => (v, none)) 0 7 "Activity1"
      (Except.ok [35, 12]) exOpen exFresh "Hello world" (NewFuture Int WfError)
      exActivityDone).2.2.1 rfl rfl rfl rfl⟩

end TimerSample

/-! ## Properties of the coroutine -/

namespace Coroutine

/-- C25 (evaluation at the failing input). For the coroutine function work,
`yield()`, work: when `newCoroutine` returns, the function and the scheduler
both run, before any `cont()`. The function runs to the receive of its first
`yield`, which has left a value in `blocking`. The scheduler calls `cont()`:
its send on `unblock` resumes the coroutine, its receive takes the value that
`yield` left in `blocking`, and `cont()` returns, while the coroutine stands in
`yield` with the work after it still to do and `done` false. After the next
statement of the coroutine the function runs its work and the scheduler runs
its own code, both at once. The last part of the claim holds: when a function
returns, `finished` stores true in `done`. -/
theorem cont_returns_while_coroutine_runs :
    ((newCoroutine exFn).fnRuns = true ∧ (newCoroutine exFn).schedulerRuns = true) ∧
    (newCoroutine exFn).steps (exFirstCont.take 4) =
      some { s := { blocking := [true], blocked := true, done := false },
             co := CoPoint.yield_receive [Stmt.work], sched := SchedPoint.scheduler } ∧
    (newCoroutine exFn).steps exFirstCont =
      some { s := { blocking := [], blocked := true, done := false },
             co := CoPoint.yield_clear [Stmt.work], sched := SchedPoint.scheduler } ∧
    (newCoroutine exFn).steps (exFirstCont ++ [Goroutine.coroutine]) =
      some { s := { blocking := [], blocked := false, done := false },
             co := CoPoint.fn [Stmt.work], sched := SchedPoint.scheduler } ∧
    (((newCoroutine exFn).steps (exFirstCont ++ [Goroutine.coroutine])).map
        fun sys => sys.fnRuns && sys.schedulerRuns) = some true ∧
    (newCoroutine []).steps [Goroutine.coroutine, Goroutine.coroutine] =
      some { s := { blocking := [], blocked := false, done := true },
             co := CoPoint.finished_send, sched := SchedPoint.scheduler } := by
  decide

end Coroutine

namespace Sync

/-- Witness for C27: on an unbuffered channel two receivers park and one value
is sent; a receiver is still parked, the buffer is empty and no sender is
parked. -/
theorem channel_state_invariant_witness :
    ((NewChannel Nat).applyAll
        [ChanOp.Receive 4, ChanOp.Receive 5, ChanOp.Send 9 30]).receivers ≠ [] ∧
    ((NewChannel Nat).applyAll [ChanOp.Receive 4, ChanOp.Receive 5, ChanOp.Send 9 30]).c = [] ∧
    ((NewChannel Nat).applyAll
        [ChanOp.Receive 4, ChanOp.Receive 5, ChanOp.Send 9 30]).senders = [] :=
  ⟨by decide,
   (channel_state_invariant 0 [ChanOp.Receive 4, ChanOp.Receive 5, ChanOp.Send 9 30]).2.2
     (by decide)⟩

end Sync
